import Mathlib

/-!
Shallow embedding of the Speed-Read backend speed-limit service
(`backend/server.py`) together with proofs about its speed-limit
resolution pipeline, cache store, geometry matching, lookahead
predictions and Overpass endpoint failover.

Modelling conventions:
* Python floats are modelled as rationals (`ℚ`); transcendental library
  calls (`math.sqrt`, `math.sin`, ...) are abstracted as an explicit
  record of real-operations (`RealOps`) because none of the verified
  properties depend on their values.
* Python dictionaries holding the cache are modelled as association
  lists keyed by the integer grid cell; the source keys the cache by the
  decimal string `f"{n/2000:.4f},{m/2000:.4f}"`, which is in bijection
  with the integer pair `(n, m)`, so the pair itself is used as key.
* Network calls are modelled by explicit oracles (one response per
  query), and `time.time()` by an explicit `now` argument.
-/

namespace SpeedRead

/-! ## Python primitives -/

/-- Python `round`: round half to even (banker's rounding), on exact rationals. -/
def pyRound (q : ℚ) : ℤ :=
  let f := ⌊q⌋
  if q - f < 1/2 then f
  else if 1/2 < q - f then f + 1
  else if 2 ∣ f then f else f + 1

/-- Python `%` on floats with a positive modulus: result carries the sign of
the divisor, `a % b = a - b * floor (a / b)`. -/
def pyMod (a b : ℚ) : ℚ := a - b * ⌊a / b⌋

/-- Python `str.lower()` (ASCII as in the OSM tags handled here). -/
def pyLower (s : String) : String := String.mk (s.toList.map Char.toLower)

/-- Python `str.strip()`: drop leading and trailing whitespace. -/
def pyStrip (s : String) : String :=
  String.mk (((s.toList.dropWhile Char.isWhitespace).reverse.dropWhile
    Char.isWhitespace).reverse)

/-- Python `pat in s` substring test, on character lists. -/
def listContainsSub (pat : List Char) : List Char → Bool
  | [] => pat.isPrefixOf ([] : List Char)
  | c :: rest => pat.isPrefixOf (c :: rest) || listContainsSub pat rest

/-- Python `pat in s` substring test on strings. -/
def strContainsSub (s pat : String) : Bool :=
  listContainsSub pat.toList s.toList

/-- Python `int(digits)` for a (nonempty) string of decimal digits. -/
def digitsToNat (ds : List Char) : Nat :=
  ds.foldl (fun n c => 10 * n + (c.toNat - 48)) 0

/-- Python `str.title()` word-capitalisation (ASCII): a letter is
uppercased when the previous character is not a letter, lowercased
otherwise. -/
def pyTitle (s : String) : String :=
  String.mk ((s.toList.foldl
    (fun (st : Bool × List Char) c =>
      if c.isAlpha then (true, (if st.1 then c.toLower else c.toUpper) :: st.2)
      else (false, c :: st.2)) (false, [])).2.reverse)

/-- `'_'.replace` used for default road names: `highway_type.replace('_', ' ')`. -/
def underscoreToSpace (s : String) : String :=
  String.mk (s.toList.map (fun c => if c = '_' then ' ' else c))

/-- Python truthiness of the parsed speed-limit value (`if speed_limit:`):
`None` and `0` are falsy. -/
def optTruthy : Option Nat → Bool
  | some n => decide (n ≠ 0)
  | none => false

/-! ## `sanitize_string` (server.py, security helpers) -/

/-- The characters removed by `re.sub(r'[<>"\';\\]', '', value)`.
(34 is the double quote, 39 the single quote.) -/
def dangerousChars : List Char := ['<', '>', Char.ofNat 34, Char.ofNat 39, ';', '\\']

/-- `sanitize_string`: drop dangerous characters, truncate, strip. -/
def sanitize_string (value : String) (max_length : Nat) : String :=
  if value = "" then value
  else
    let s := value.toList.filter (fun c => !(dangerousChars.contains c))
    pyStrip (String.mk (s.take max_length))

/-! ## `parse_maxspeed` (server.py, inside `get_speed_limit`) -/

/-- `parse_maxspeed`: parse an OSM `maxspeed` tag into `(speed_limit, unit)`.
Mirrors the source branch for branch; Python `str.isdigit()` is
"nonempty and all digits". -/
def parse_maxspeed (maxspeed : String) : Option Nat × String :=
  if maxspeed = "" then (none, "mph")
  else
    let mc := pyStrip (pyLower maxspeed)
    if mc = "none" ∨ mc = "unlimited" then (some 75, "mph")
    else if mc = "walk" then (some 5, "mph")
    else if strContainsSub mc "mph" then
      let ds := mc.toList.filter Char.isDigit
      (if ds = [] then none else some (digitsToNat ds), "mph")
    else if strContainsSub mc "km/h" || strContainsSub mc "kmh" then
      let ds := mc.toList.filter Char.isDigit
      (if ds = [] then none else some (digitsToNat ds), "km/h")
    else if !mc.toList.isEmpty && mc.toList.all Char.isDigit then
      (some (digitsToNat mc.toList), "km/h")
    else
      let ds := mc.toList.filter Char.isDigit
      if ds = [] then (none, "mph") else (some (digitsToNat ds), "km/h")

/-- C3: `parse_maxspeed` maps `"30 mph"` to `(30, "mph")`, a bare `"50"` to
`(50, "km/h")` (bare-number km/h convention), `"none"`/`"unlimited"` to the
fixed unrestricted-highway default `(75, "mph")`, `"walk"` to the fixed
pedestrian default `(5, "mph")`, and yields no numeric value for any input
whose cleaned form is not one of the sentinels and contains no digit.  The
function is pure, so the results are independent of call order or any prior
cache state. -/
theorem parse_maxspeed_spec :
    parse_maxspeed "30 mph" = (some 30, "mph") ∧
    parse_maxspeed "50" = (some 50, "km/h") ∧
    parse_maxspeed "none" = (some 75, "mph") ∧
    parse_maxspeed "unlimited" = (some 75, "mph") ∧
    parse_maxspeed "walk" = (some 5, "mph") ∧
    ∀ s : String,
      (pyStrip (pyLower s)).toList.filter Char.isDigit = [] →
      ¬ (pyStrip (pyLower s) = "none" ∨ pyStrip (pyLower s) = "unlimited") →
      pyStrip (pyLower s) ≠ "walk" →
      (parse_maxspeed s).1 = none := by
  refine ⟨by decide, by decide, by decide, by decide, by decide, ?_⟩
  intro s hd hsent hwalk
  by_cases hs : s = ""
  · simp [hs, parse_maxspeed]
  · simp only [parse_maxspeed, hs, if_false, if_neg hsent, if_neg hwalk]
    split_ifs with h1 h2 h3
    · simp [hd]
    · simp [hd]
    · exfalso
      have hall : (pyStrip (pyLower s)).toList.all Char.isDigit = true :=
        (Bool.and_eq_true _ _ |>.mp h3).2
      have hne : ¬ (pyStrip (pyLower s)).toList.isEmpty = true :=
        by simpa using (Bool.and_eq_true _ _ |>.mp h3).1
      have hself : (pyStrip (pyLower s)).toList.filter Char.isDigit
          = (pyStrip (pyLower s)).toList :=
        List.filter_eq_self.mpr (by simpa [List.all_eq_true] using hall)
      rw [hd] at hself
      exact hne (by rw [List.isEmpty_iff]; exact hself.symm)
    · simp [hd]

/-- Witness for C3: the unparseable input `"signals"` yields no numeric value. -/
theorem parse_maxspeed_spec_witness :
    (pyStrip (pyLower "signals")).toList.filter Char.isDigit = [] ∧
    (parse_maxspeed "signals").1 = none :=
  ⟨by decide,
   parse_maxspeed_spec.2.2.2.2.2 "signals" (by decide) (by decide) (by decide)⟩

/-! ## Speed limit results and the in-memory cache (server.py lines 84-160) -/

/-- The result dictionary built by `get_speed_limit` (and stored verbatim in
the cache): `{"speed_limit", "unit", "road_name", "source"}`. -/
structure SpeedLimitResult where
  speed_limit : Option Nat
  unit : String
  road_name : Option String
  source : String
deriving DecidableEq

/-- One cache slot: `{'timestamp': time.time(), 'data': data}`. -/
structure CacheEntry where
  timestamp : ℚ
  data : SpeedLimitResult
deriving DecidableEq

/-- The cache dictionary, as an association list over integer grid cells. -/
abbrev Cache := List ((ℤ × ℤ) × CacheEntry)

/-- Python dict membership/lookup (`key in cache` / `cache[key]`). -/
def cacheFind : Cache → (ℤ × ℤ) → Option CacheEntry
  | [], _ => none
  | (k, e) :: rest, key => if k = key then some e else cacheFind rest key

/-- Python `del cache[key]`. -/
def cacheErase (c : Cache) (key : ℤ × ℤ) : Cache :=
  c.filter (fun p => !(p.1 = key : Bool))

/-- Python `cache[key] = entry`: replace in place, or append a new binding. -/
def cacheInsert : Cache → (ℤ × ℤ) → CacheEntry → Cache
  | [], key, e => [(key, e)]
  | (k, e') :: rest, key, e =>
    if k = key then (key, e) :: rest else (k, e') :: cacheInsert rest key e

/-- `get_cache_key`: round both coordinates to the nearest `0.0005` degrees
(`round(x * 2000) / 2000`); the source formats the result as the string
`f"{.4f},{.4f}"`, which is in bijection with the integer pair used here. -/
def get_cache_key (lat lon : ℚ) : ℤ × ℤ :=
  (pyRound (lat * 2000), pyRound (lon * 2000))

/-- `get_nearby_cache_keys`: the 3x3 grid of cells around the point. -/
def get_nearby_cache_keys (lat lon : ℚ) : List (ℤ × ℤ) :=
  ([-(1 : ℚ)/2000, 0, 1/2000].flatMap fun dlat =>
    [-(1 : ℚ)/2000, 0, 1/2000].map fun dlon =>
      get_cache_key (lat + dlat) (lon + dlon))

/-- `get_cache_ttl`: TTL in seconds by data source. -/
def get_cache_ttl (source : String) : ℚ :=
  if source = "openstreetmap" then 7200
  else if source = "estimated" then 3600
  else if source = "none" then 600
  else if source = "error" then 300
  else 3600

/-- The neighbouring-cell scan inside `get_cached_speed_limit`: first
non-exact cell holding a fresh entry whose source is neither `"error"` nor
`"none"`. -/
def scanNearbyKeys (c : Cache) (now : ℚ) (key : ℤ × ℤ) :
    List (ℤ × ℤ) → Option SpeedLimitResult
  | [] => none
  | k :: ks =>
    match cacheFind c k with
    | some entry =>
      if k ≠ key ∧ now - entry.timestamp < get_cache_ttl entry.data.source ∧
          entry.data.source ≠ "error" ∧ entry.data.source ≠ "none" then
        some entry.data
      else scanNearbyKeys c now key ks
    | none => scanNearbyKeys c now key ks

/-- `get_cached_speed_limit`: exact cell first (deleting it when expired),
then the 3x3 neighbourhood.  Returns the served data (if any) together with
the possibly-updated cache. -/
def get_cached_speed_limit (c : Cache) (now lat lon : ℚ) :
    Option SpeedLimitResult × Cache :=
  let key := get_cache_key lat lon
  match cacheFind c key with
  | some entry =>
    if now - entry.timestamp < get_cache_ttl entry.data.source then
      (some entry.data, c)
    else
      let c' := cacheErase c key
      (scanNearbyKeys c' now key (get_nearby_cache_keys lat lon), c')
  | none => (scanNearbyKeys c now key (get_nearby_cache_keys lat lon), c)

/-- The eviction step of `set_cached_speed_limit`: delete the oldest
`int(CACHE_MAX_SIZE * 0.2) = 1000` entries (stable sort by timestamp, as
Python's `sorted`). -/
def evictOldest (c : Cache) : Cache :=
  let sortedKeys :=
    (c.mergeSort (fun a b => decide (a.2.timestamp ≤ b.2.timestamp))).map
      (fun p => p.1)
  (sortedKeys.take 1000).foldl cacheErase c

/-- `set_cached_speed_limit`: LRU-style eviction beyond `CACHE_MAX_SIZE =
5000` entries, then store the result under the grid key. -/
def set_cached_speed_limit (c : Cache) (now lat lon : ℚ)
    (data : SpeedLimitResult) : Cache :=
  let c1 := if 5000 < c.length then evictOldest c else c
  cacheInsert c1 (get_cache_key lat lon) ⟨now, data⟩

/-! ### Cache lemmas -/

/-- Every TTL class is positive, so an entry written at time `now` is always
fresh when read back at time `now`. -/
lemma get_cache_ttl_pos (source : String) : 0 < get_cache_ttl source := by
  unfold get_cache_ttl
  split_ifs <;> norm_num

/-- Anything served by the neighbouring-cell scan has a source other than
`"error"` and `"none"`. -/
lemma scanNearbyKeys_good_source (c : Cache) (now : ℚ) (key : ℤ × ℤ)
    (ks : List (ℤ × ℤ)) (d : SpeedLimitResult)
    (h : scanNearbyKeys c now key ks = some d) :
    d.source ≠ "error" ∧ d.source ≠ "none" := by
  induction ks with
  | nil => simp [scanNearbyKeys] at h
  | cons k ks ih =>
    rw [scanNearbyKeys] at h
    rcases hf : cacheFind c k with _ | entry
    · simp only [hf] at h
      exact ih h
    · simp only [hf] at h
      split_ifs at h with hcond
      · cases h
        exact ⟨hcond.2.2.1, hcond.2.2.2⟩
      · exact ih h

/-- Fractional part of `-1 : ℚ` (used when evaluating `pyRound` on concrete
grid coordinates). -/
lemma fract_neg_one : Int.fract (-1 : ℚ) = 0 := by
  have h : ((-1 : ℤ) : ℚ) = (-1 : ℚ) := by norm_num
  rw [← h, Int.fract_intCast]

/-- Looking up the key just inserted returns the new entry. -/
lemma cacheFind_insert (c : Cache) (key : ℤ × ℤ) (e : CacheEntry) :
    cacheFind (cacheInsert c key e) key = some e := by
  induction c with
  | nil => simp [cacheInsert, cacheFind]
  | cons p rest ih =>
    obtain ⟨k, e'⟩ := p
    by_cases hk : k = key
    · simp [cacheInsert, hk, cacheFind]
    · simp [cacheInsert, hk, cacheFind, ih]

/-- C4 (amended): on every `Get`, (i) an unexpired exact-cell entry is served
as-is without consulting neighbours, and (ii) whenever the exact cell misses
or is expired, any served result comes from the neighbour scan and therefore
has a source other than `"error"` and `"none"` — unexpired `None`/`Error`
entries in neighbouring cells are never returned.  (The code accepts *any*
other source from a neighbour, including `"tomtom"`, not just
explicit/estimated ones — see the counterexample.) -/
theorem get_cached_neighbor_rules (c : Cache) (now lat lon : ℚ) :
    (∀ e, cacheFind c (get_cache_key lat lon) = some e →
      now - e.timestamp < get_cache_ttl e.data.source →
      (get_cached_speed_limit c now lat lon).1 = some e.data) ∧
    ((∀ e, cacheFind c (get_cache_key lat lon) = some e →
        get_cache_ttl e.data.source ≤ now - e.timestamp) →
      ∀ d, (get_cached_speed_limit c now lat lon).1 = some d →
        d.source ≠ "error" ∧ d.source ≠ "none") := by
  constructor
  · intro e hfind hfresh
    simp only [get_cached_speed_limit, hfind, if_pos hfresh]
  · intro hstale d hret
    simp only [get_cached_speed_limit] at hret
    rcases hf : cacheFind c (get_cache_key lat lon) with _ | entry
    · simp only [hf] at hret
      exact scanNearbyKeys_good_source _ _ _ _ _ hret
    · have hexp : ¬ now - entry.timestamp < get_cache_ttl entry.data.source :=
        not_lt.mpr (hstale entry hf)
      simp only [hf, if_neg hexp] at hret
      exact scanNearbyKeys_good_source _ _ _ _ _ hret

/-- Shifting by a whole number of grid steps shifts the rounded cell index,
away from the `0.0005`-degree cell boundaries (where Python's
round-half-to-even makes `round(q + 1) ≠ round(q) + 1`). -/
lemma pyRound_add_int (q : ℚ) (n : ℤ) (h : q - ⌊q⌋ ≠ 1/2) :
    pyRound (q + n) = pyRound q + n := by
  simp only [pyRound]
  rw [Int.floor_add_int]
  have harg : q + (n : ℚ) - ((⌊q⌋ + n : ℤ) : ℚ) = q - ⌊q⌋ := by
    push_cast
    ring
  rw [harg]
  rcases lt_or_gt_of_ne h with hlt | hgt
  · rw [if_pos hlt, if_pos hlt]
  · rw [if_neg (not_lt.mpr (le_of_lt hgt)), if_pos hgt,
      if_neg (not_lt.mpr (le_of_lt hgt)), if_pos hgt]
    ring

/-- Moving the query point by whole grid steps (multiples of `0.0005`
degrees) shifts the cache key cell-by-cell, for points not on a cell
boundary. -/
lemma get_cache_key_shift (lat lon : ℚ) (m n : ℤ)
    (hla : lat * 2000 - ⌊lat * 2000⌋ ≠ 1/2)
    (hlo : lon * 2000 - ⌊lon * 2000⌋ ≠ 1/2) :
    get_cache_key (lat + (m : ℚ)/2000) (lon + (n : ℚ)/2000)
      = (pyRound (lat * 2000) + m, pyRound (lon * 2000) + n) := by
  unfold get_cache_key
  have h1 : (lat + (m : ℚ)/2000) * 2000 = lat * 2000 + m := by ring
  have h2 : (lon + (n : ℚ)/2000) * 2000 = lon * 2000 + n := by ring
  rw [h1, h2, pyRound_add_int _ _ hla, pyRound_add_int _ _ hlo]

/-- On a one-entry cache the neighbour scan returns that entry as soon as its
key is among the scanned keys, is not the exact key, and the entry is fresh
with an accepted source. -/
lemma scanNearbyKeys_single (s : ℤ × ℤ) (e : CacheEntry) (now : ℚ)
    (key : ℤ × ℤ) (ks : List (ℤ × ℤ))
    (hmem : s ∈ ks) (hne : s ≠ key)
    (hfresh : now - e.timestamp < get_cache_ttl e.data.source)
    (herr : e.data.source ≠ "error") (hnone : e.data.source ≠ "none") :
    scanNearbyKeys [(s, e)] now key ks = some e.data := by
  induction ks with
  | nil => cases hmem
  | cons k ks ih =>
    rw [scanNearbyKeys]
    by_cases hk : s = k
    · subst hk
      have hfind : cacheFind [(s, e)] s = some e := by simp [cacheFind]
      simp only [hfind]
      rw [if_pos ⟨hne, hfresh, herr, hnone⟩]
    · have hfind : cacheFind [(s, e)] k = none := by simp [cacheFind, hk]
      simp only [hfind]
      refine ih ?_
      rcases List.mem_cons.mp hmem with h | h
      · exact absurd h hk
      · exact h

/-- An unexpired `"tomtom"` (external provider) result sitting in cell
`(0, 0)`. -/
def tomtomNeighborData : SpeedLimitResult :=
  ⟨some 31, "mph", none, "tomtom"⟩

/-- A cache holding only the `"tomtom"` entry. -/
def cacheWithTomtom : Cache := [((0, 0), ⟨0, tomtomNeighborData⟩)]

/-- Counterexample to C4 as stated: a `Get` one grid cell away (exact cell
`(1, 0)` is a miss) serves the neighbouring `"tomtom"` entry, whose source is
neither `Explicit` (`"openstreetmap"`) nor `Estimated` (`"estimated"`). -/
theorem get_cached_neighbor_counterexample :
    (get_cached_speed_limit cacheWithTomtom 0 (1/2000) 0).1
      = some tomtomNeighborData ∧
    cacheFind cacheWithTomtom (get_cache_key (1/2000) 0) = none ∧
    tomtomNeighborData.source ≠ "openstreetmap" ∧
    tomtomNeighborData.source ≠ "estimated" := by
  have hkey : get_cache_key (1/2000) 0 = (1, 0) := by
    norm_num [get_cache_key, pyRound]
  have hnear : get_nearby_cache_keys (1/2000) 0 =
      [(0,-1),(0,0),(0,1),(1,-1),(1,0),(1,1),(2,-1),(2,0),(2,1)] := by
    norm_num [get_nearby_cache_keys, get_cache_key, pyRound, fract_neg_one]
  have hfind : cacheFind cacheWithTomtom (1, 0) = none := by
    simp [cacheFind, cacheWithTomtom, Prod.ext_iff]
  refine ⟨?_, by rw [hkey]; exact hfind, by decide, by decide⟩
  simp only [get_cached_speed_limit, hkey, hnear, hfind]
  simp +decide [scanNearbyKeys, cacheFind, cacheWithTomtom, get_cache_ttl,
    tomtomNeighborData, Prod.ext_iff]

/-- An estimated entry used to witness C4's amended theorem. -/
def estimatedCellData : SpeedLimitResult :=
  ⟨some 25, "mph", some "Elm Street", "estimated"⟩

/-- Witness for C4 (amended): with a fresh exact-cell entry the `Get` serves
exactly that entry. -/
theorem get_cached_neighbor_rules_witness :
    (get_cached_speed_limit [((0, 0), ⟨0, estimatedCellData⟩)] 0 0 0).1
      = some estimatedCellData :=
  (get_cached_neighbor_rules [((0, 0), ⟨0, estimatedCellData⟩)] 0 0 0).1
    ⟨0, estimatedCellData⟩
    (by norm_num [cacheFind, get_cache_key, pyRound, Prod.ext_iff])
    (by simp +decide [estimatedCellData, get_cache_ttl])

/-! ## Road elements and geometry (server.py, `get_speed_limit` helpers) -/

/-- Abstract real-valued library functions (`math.sqrt`, trigonometry,
degree conversions) over the `ℚ`-modelled floats.  None of the verified
properties depend on their values, so they are carried as parameters. -/
structure RealOps where
  sqrt : ℚ → ℚ
  sin : ℚ → ℚ
  cos : ℚ → ℚ
  asin : ℚ → ℚ
  atan2 : ℚ → ℚ → ℚ
  radians : ℚ → ℚ
  degrees : ℚ → ℚ

/-- A vertex of a way's geometry (`{"lat": .., "lon": ..}`). -/
structure GeoPoint where
  lat : ℚ
  lon : ℚ
deriving DecidableEq

/-- An Overpass way element, with the tags the service reads
(`tags.get(..., "")`-style defaults: the empty string models a missing or
falsy tag) and its geometry (present only for `out body geom` queries). -/
structure Element where
  highway : String
  maxspeed : String
  name : String
  ref : String
  geometry : List GeoPoint
deriving DecidableEq

/-- `calculate_point_to_segment_distance`: distance from `(px, py)` to the
segment `(x1, y1)-(x2, y2)` with the projection parameter clamped to
`[0, 1]`; degenerate segments fall back to the point distance (which the
source leaves in degrees, without the `* 111000` metre conversion). -/
def calculate_point_to_segment_distance (R : RealOps)
    (px py x1 y1 x2 y2 : ℚ) : ℚ :=
  let dx := x2 - x1
  let dy := y2 - y1
  if dx = 0 ∧ dy = 0 then R.sqrt ((px - x1)^2 + (py - y1)^2)
  else
    let t := max 0 (min 1 (((px - x1) * dx + (py - y1) * dy) / (dx * dx + dy * dy)))
    let closest_x := x1 + t * dx
    let closest_y := y1 + t * dy
    R.sqrt ((px - closest_x)^2 + (py - closest_y)^2) * 111000

/-- The consecutive point pairs of a geometry (`geometry[i], geometry[i+1]`). -/
def segmentPairs : List GeoPoint → List (GeoPoint × GeoPoint)
  | [] => []
  | [_] => []
  | p :: q :: rest => (p, q) :: segmentPairs (q :: rest)

/-- The per-road inner loop of `find_closest_road_with_geometry`: minimum of
the segment distances (`none` plays the role of the initial `float('inf')`,
and is never the result for a geometry with at least two points).  The
source calls the distance with `(user_lon, user_lat)` as `(px, py)` and the
vertices as `(lon, lat)`. -/
def minDistStep (R : RealOps) (user_lat user_lon : ℚ) (acc : Option ℚ)
    (pq : GeoPoint × GeoPoint) : Option ℚ :=
  let d := calculate_point_to_segment_distance R user_lon user_lat
    pq.1.lon pq.1.lat pq.2.lon pq.2.lat
  match acc with
  | none => some d
  | some m => some (min m d)

/-- Minimum distance of a road: fold of `minDistStep` over its segments. -/
def roadMinDist (R : RealOps) (e : Element) (user_lat user_lon : ℚ) : Option ℚ :=
  (segmentPairs e.geometry).foldl (minDistStep R user_lat user_lon) none

/-- One iteration of the candidate loop in
`find_closest_road_with_geometry`: skip roads with fewer than two geometry
points, keep the strictly closer road otherwise. -/
def closestStep (R : RealOps) (user_lat user_lon : ℚ)
    (st : Option Element × Option ℚ) (e : Element) : Option Element × Option ℚ :=
  if e.geometry.length < 2 then st
  else
    match roadMinDist R e user_lat user_lon with
    | none => st
    | some d =>
      match st.2 with
      | none => (some e, some d)
      | some m => if d < m then (some e, some d) else st

/-- `find_closest_road_with_geometry`: the road whose minimum
point-to-segment distance to the user position is smallest (first such road
on ties); `None` when no candidate has at least two geometry points. -/
def find_closest_road_with_geometry (R : RealOps) (elements : List Element)
    (user_lat user_lon : ℚ) : Option Element :=
  (elements.foldl (closestStep R user_lat user_lon) (none, none)).1

/-- `ROAD_PRIORITY.get(highway_type, 100)`. -/
def ROAD_PRIORITY (highway : String) : Nat :=
  if highway = "motorway" then 1
  else if highway = "motorway_link" then 2
  else if highway = "trunk" then 3
  else if highway = "trunk_link" then 4
  else if highway = "primary" then 5
  else if highway = "primary_link" then 6
  else if highway = "secondary" then 7
  else if highway = "secondary_link" then 8
  else if highway = "tertiary" then 9
  else if highway = "tertiary_link" then 10
  else if highway = "residential" then 11
  else if highway = "unclassified" then 12
  else if highway = "living_street" then 13
  else if highway = "service" then 14
  else 100

/-- `get_best_road`: pick the element with the best (lowest) road-class
priority; defined in the source but never called by the resolution path. -/
def get_best_road (elements : List Element) : Option Element :=
  if elements = [] then none
  else
    let st := elements.foldl
      (fun (st : Option Element × Nat) e =>
        if ROAD_PRIORITY e.highway < st.2 then (some e, ROAD_PRIORITY e.highway)
        else st)
      (none, 999)
    match st.1 with
    | some best => some best
    | none => elements.head?

/-- The `HIGHWAY_SPEED_DEFAULTS` dictionary: US class → typical limit (mph). -/
def HIGHWAY_SPEED_DEFAULTS_TABLE : List (String × Nat) :=
  [("motorway", 70), ("motorway_link", 45), ("trunk", 65), ("trunk_link", 40),
   ("primary", 55), ("primary_link", 35), ("secondary", 45),
   ("secondary_link", 30), ("tertiary", 35), ("tertiary_link", 25),
   ("residential", 25), ("unclassified", 45), ("living_street", 15),
   ("service", 15), ("track", 25), ("road", 35), ("busway", 35),
   ("raceway", 45), ("pedestrian", 10), ("footway", 10), ("cycleway", 15),
   ("bridleway", 15), ("path", 15), ("steps", 5)]

/-- `HIGHWAY_SPEED_DEFAULTS.get(highway_type)`. -/
def HIGHWAY_SPEED_DEFAULTS (highway : String) : Option Nat :=
  (HIGHWAY_SPEED_DEFAULTS_TABLE.find? (fun p => p.1 = highway)).map (fun p => p.2)

/-! ## The `get_speed_limit` resolution pipeline (server.py lines 896-1215) -/

/-- The two Overpass query shapes issued by `get_speed_limit`:
`way(around:r,lat,lon)["highway"]["maxspeed"]; out body geom;` and
`way(around:r,lat,lon)["highway"]; out body geom;`. -/
inductive QueryKind
  | maxspeedGeom
  | highwayGeom
deriving DecidableEq

/-- The Geo Query Client as seen by the resolution: one parsed response per
(query kind, radius); `none` models "all Overpass servers failed". -/
abbrev Oracle := QueryKind → Nat → Option (List Element)

/-- `tags.get("name") or tags.get("ref") or default` (Python falsy chain). -/
def pickName (road : Element) (dflt : String) : String :=
  if road.name ≠ "" then road.name
  else if road.ref ≠ "" then road.ref
  else dflt

/-- Build the `"openstreetmap"` result from a chosen road, provided its
`maxspeed` parses to a truthy value (`if speed_limit:`). -/
def explicitResultOf (road : Element) : Option SpeedLimitResult :=
  let ms := parse_maxspeed road.maxspeed
  if optTruthy ms.1 then
    some ⟨ms.1, ms.2,
      some (sanitize_string (pickName road "Unknown Road") 100),
      "openstreetmap"⟩
  else none

/-- `road = find_closest_road_with_geometry(...); if not road: road =
elements[0]` — the fallback used by the radius-loop steps. -/
def pickClosestOrFirst (R : RealOps) (els : List Element)
    (lat lon : ℚ) : Option Element :=
  match find_closest_road_with_geometry R els lat lon with
  | some road => some road
  | none => els.head?

/-- Highway classes excluded from the estimated fallback
(`footway/cycleway/path/steps/pedestrian/bridleway`). -/
def NON_DRIVEABLE : List String :=
  ["footway", "cycleway", "path", "steps", "pedestrian", "bridleway"]

/-- The `driveable_roads` filter: not a pedestrian/cycle class, and having a
class default (`highway_type in HIGHWAY_SPEED_DEFAULTS`). -/
def driveableRoads (els : List Element) : List Element :=
  els.filter (fun e =>
    !(NON_DRIVEABLE.contains e.highway) && (HIGHWAY_SPEED_DEFAULTS e.highway).isSome)

/-- Build the `"estimated"` result from a chosen driveable road, provided
its class default is truthy (`if estimated_limit:`). -/
def estimatedResultOf (road : Element) : Option SpeedLimitResult :=
  let est := HIGHWAY_SPEED_DEFAULTS road.highway
  if optTruthy est then
    some ⟨est, "mph",
      some (sanitize_string
        (pickName road (pyTitle (underscoreToSpace road.highway))) 100),
      "estimated"⟩
  else none

/-- STEP 1 (radius 75): closest road from the maxspeed+geometry query, no
first-element fallback. -/
def tryExplicitClosest (R : RealOps) (els : List Element)
    (lat lon : ℚ) : Option SpeedLimitResult :=
  match find_closest_road_with_geometry R els lat lon with
  | some road => explicitResultOf road
  | none => none

/-- Radius-loop explicit attempt: closest road, else first element. -/
def tryExplicitOrFirst (R : RealOps) (els : List Element)
    (lat lon : ℚ) : Option SpeedLimitResult :=
  match pickClosestOrFirst R els lat lon with
  | some road => explicitResultOf road
  | none => none

/-- Radius-loop estimated attempt: filter to driveable roads, pick the
closest (else the first), and map its class default. -/
def tryEstimated (R : RealOps) (els : List Element)
    (lat lon : ℚ) : Option SpeedLimitResult :=
  let dr := driveableRoads els
  if dr = [] then none
  else
    match pickClosestOrFirst R dr lat lon with
    | some road => estimatedResultOf road
    | none => none

/-- `if data and data.get("elements"):` — a response is usable when present
with a nonempty element list. -/
def usableElements (resp : Option (List Element)) : Option (List Element) :=
  match resp with
  | some els => if els = [] then none else some els
  | none => none

/-- One radius's explicit attempt inside the STEP-2 loop: maxspeed+geometry
query, then closest-or-first road, then the parsed limit. -/
def explAttempt (R : RealOps) (oracle : Oracle) (lat lon : ℚ) (r : Nat) :
    Option SpeedLimitResult :=
  match usableElements (oracle .maxspeedGeom r) with
  | some els => tryExplicitOrFirst R els lat lon
  | none => none

/-- One radius's estimated attempt inside the STEP-2 loop: highway+geometry
query, then the driveable filter and the class-default table. -/
def estAttempt (R : RealOps) (oracle : Oracle) (lat lon : ℚ) (r : Nat) :
    Option SpeedLimitResult :=
  match usableElements (oracle .highwayGeom r) with
  | some els => tryEstimated R els lat lon
  | none => none

/-- STEP 2: the `for radius in [100, 150, 250]` loop.  Returns the result
(if any path returned) and the number of Overpass calls made. -/
def radiusLoop (R : RealOps) (oracle : Oracle) (lat lon : ℚ) :
    List Nat → Option SpeedLimitResult × Nat
  | [] => (none, 0)
  | r :: rs =>
    match explAttempt R oracle lat lon r with
    | some res => (some res, 1)
    | none =>
      match estAttempt R oracle lat lon r with
      | some res => (some res, 2)
      | none =>
        let (res, k) := radiusLoop R oracle lat lon rs
        (res, k + 2)

/-- The "no data" result cached and returned after all sources fail. -/
def noneResult : SpeedLimitResult := ⟨none, "mph", none, "none"⟩

/-- The post-cache resolution of `get_speed_limit`: STEP 1 at radius 75,
STEP 2 over radii 100/150/250, then the TomTom fallback (gated by the API
key, accepted only with a truthy `speed_limit`), then the `"none"` result.
Also counts the upstream (Overpass/TomTom) calls made. -/
def step1Attempt (R : RealOps) (oracle : Oracle) (lat lon : ℚ) :
    Option SpeedLimitResult :=
  match usableElements (oracle .maxspeedGeom 75) with
  | some els => tryExplicitClosest R els lat lon
  | none => none

/-- The post-cache resolution, continued: STEP 1, STEP 2, TomTom, `"none"`. -/
def resolveSpeedLimit (R : RealOps) (oracle : Oracle) (lat lon : ℚ)
    (tomtom_key : Bool) (tomtom_result : Option SpeedLimitResult) :
    SpeedLimitResult × Nat :=
  match step1Attempt R oracle lat lon with
  | some res => (res, 1)
  | none =>
    match radiusLoop R oracle lat lon [100, 150, 250] with
    | (some res, k) => (res, k + 1)
    | (none, k) =>
      if tomtom_key then
        match tomtom_result with
        | some tr =>
          if optTruthy tr.speed_limit then (tr, k + 2) else (noneResult, k + 2)
        | none => (noneResult, k + 2)
      else (noneResult, k + 1)

/-- `GET /speed-limit`: validate, consult the cache, resolve, store.  Every
return path of the source stores exactly the returned result, so the cache
write is hoisted to the single resolution exit.  The `Nat` component counts
upstream calls (`0` on a cache hit). -/
def get_speed_limit (R : RealOps) (oracle : Oracle) (c : Cache)
    (now lat lon : ℚ) (tomtom_key : Bool)
    (tomtom_result : Option SpeedLimitResult) :
    Except Nat (SpeedLimitResult × Cache × Nat) :=
  if ¬ (-90 ≤ lat ∧ lat ≤ 90) ∨ ¬ (-180 ≤ lon ∧ lon ≤ 180) then .error 400
  else
    match get_cached_speed_limit c now lat lon with
    | (some d, c') => .ok (d, c', 0)
    | (none, c') =>
      let (res, k) := resolveSpeedLimit R oracle lat lon tomtom_key tomtom_result
      .ok (res, set_cached_speed_limit c' now lat lon res, k)

/-! ### Geometry lemmas (Road Matcher) -/

lemma minDistStep_isSome (R : RealOps) (la lo : ℚ) (acc : Option ℚ)
    (pq : GeoPoint × GeoPoint) : (minDistStep R la lo acc pq).isSome := by
  cases acc <;> simp [minDistStep]

lemma foldl_minDistStep_isSome (R : RealOps) (la lo : ℚ) :
    ∀ (l : List (GeoPoint × GeoPoint)) (acc : Option ℚ),
      acc.isSome ∨ l ≠ [] →
      ((l.foldl (minDistStep R la lo) acc).isSome) := by
  intro l
  induction l with
  | nil =>
    intro acc h
    rcases h with h | h
    · simpa using h
    · simp at h
  | cons pq rest ih =>
    intro acc _
    rw [List.foldl_cons]
    exact ih _ (Or.inl (minDistStep_isSome R la lo acc pq))

lemma segmentPairs_ne_nil (g : List GeoPoint) (h : 2 ≤ g.length) :
    segmentPairs g ≠ [] := by
  match g with
  | [] => simp at h
  | [_] => simp at h
  | p :: q :: rest => simp [segmentPairs]

/-- A road with at least two geometry points always has a minimum distance. -/
lemma roadMinDist_isSome (R : RealOps) (e : Element) (la lo : ℚ)
    (h : 2 ≤ e.geometry.length) : ∃ d, roadMinDist R e la lo = some d := by
  have := foldl_minDistStep_isSome R la lo (segmentPairs e.geometry) none
    (Or.inr (segmentPairs_ne_nil _ h))
  rw [roadMinDist]
  exact Option.isSome_iff_exists.mp this

/-- Invariant of the candidate loop of `find_closest_road_with_geometry`:
either nothing eligible was seen yet, or the state holds a seen eligible
road achieving the minimum distance among all eligible roads seen. -/
def ClosestInv (R : RealOps) (la lo : ℚ) (processed : List Element) :
    Option Element × Option ℚ → Prop
  | (none, none) => ∀ e ∈ processed, e.geometry.length < 2
  | (some e, some m) =>
      e ∈ processed ∧ 2 ≤ e.geometry.length ∧ roadMinDist R e la lo = some m ∧
      ∀ e' ∈ processed, 2 ≤ e'.geometry.length →
        ∀ d', roadMinDist R e' la lo = some d' → m ≤ d'
  | (none, some _) => False
  | (some _, none) => False

lemma closestStep_inv (R : RealOps) (la lo : ℚ) (processed : List Element)
    (st : Option Element × Option ℚ) (e : Element)
    (h : ClosestInv R la lo processed st) :
    ClosestInv R la lo (processed ++ [e]) (closestStep R la lo st e) := by
  rcases st with ⟨r, m⟩
  by_cases hlen : e.geometry.length < 2
  · rw [closestStep, if_pos hlen]
    rcases r with _ | b <;> rcases m with _ | mv
    · intro x hx
      rcases List.mem_append.mp hx with hx | hx
      · exact h x hx
      · simp at hx
        subst hx
        exact hlen
    · exact h.elim
    · exact h.elim
    · obtain ⟨hmem, hbl, hbd, hmin⟩ := h
      refine ⟨List.mem_append_left _ hmem, hbl, hbd, ?_⟩
      intro e' he' hl' d' hd'
      rcases List.mem_append.mp he' with he' | he'
      · exact hmin e' he' hl' d' hd'
      · simp at he'
        subst he'
        omega
  · have hlen' : 2 ≤ e.geometry.length := by omega
    obtain ⟨d, hd⟩ := roadMinDist_isSome R e la lo hlen'
    rw [closestStep, if_neg hlen, hd]
    rcases r with _ | b <;> rcases m with _ | mv
    · refine ⟨List.mem_append_right _ (by simp), hlen', hd, ?_⟩
      intro e' he' hl' d' hd'
      rcases List.mem_append.mp he' with he' | he'
      · exact absurd hl' (not_le.mpr (h e' he'))
      · simp at he'
        subst he'
        rw [hd] at hd'
        cases hd'
        exact le_refl _
    · exact h.elim
    · exact h.elim
    · obtain ⟨hmem, hbl, hbd, hmin⟩ := h
      by_cases hdm : d < mv
      · dsimp only
        rw [if_pos hdm]
        refine ⟨List.mem_append_right _ (by simp), hlen', hd, ?_⟩
        intro e' he' hl' d' hd'
        rcases List.mem_append.mp he' with he' | he'
        · exact le_trans (le_of_lt hdm) (hmin e' he' hl' d' hd')
        · simp at he'
          subst he'
          rw [hd] at hd'
          cases hd'
          exact le_refl _
      · dsimp only
        rw [if_neg hdm]
        refine ⟨List.mem_append_left _ hmem, hbl, hbd, ?_⟩
        intro e' he' hl' d' hd'
        rcases List.mem_append.mp he' with he' | he'
        · exact hmin e' he' hl' d' hd'
        · simp at he'
          subst he'
          rw [hd] at hd'
          cases hd'
          exact not_lt.mp hdm

lemma foldl_closestStep_inv (R : RealOps) (la lo : ℚ) :
    ∀ (l processed : List Element) (st : Option Element × Option ℚ),
      ClosestInv R la lo processed st →
      ClosestInv R la lo (processed ++ l) (l.foldl (closestStep R la lo) st) := by
  intro l
  induction l with
  | nil =>
    intro processed st h
    simpa using h
  | cons e rest ih =>
    intro processed st h
    have step := closestStep_inv R la lo processed st e h
    have := ih (processed ++ [e]) (closestStep R la lo st e) step
    simpa [List.append_assoc] using this

/-- The final state of `find_closest_road_with_geometry` satisfies the
invariant over the whole candidate list. -/
lemma find_closest_inv (R : RealOps) (els : List Element) (la lo : ℚ) :
    ClosestInv R la lo els (els.foldl (closestStep R la lo) (none, none)) := by
  have h0 : ClosestInv R la lo [] (none, none) := by
    intro e he
    cases he
  simpa using foldl_closestStep_inv R la lo els [] (none, none) h0

/-- When the candidate loop returns a road, it is an eligible candidate
achieving the minimum distance. -/
lemma find_closest_mem (R : RealOps) (els : List Element) (la lo : ℚ)
    (e : Element) (h : find_closest_road_with_geometry R els la lo = some e) :
    e ∈ els ∧ 2 ≤ e.geometry.length ∧
      ∃ m, roadMinDist R e la lo = some m ∧
        ∀ e' ∈ els, 2 ≤ e'.geometry.length →
          ∀ d', roadMinDist R e' la lo = some d' → m ≤ d' := by
  have hinv := find_closest_inv R els la lo
  unfold find_closest_road_with_geometry at h
  rcases hst : els.foldl (closestStep R la lo) (none, none) with ⟨r, m⟩
  rw [hst] at hinv h
  rcases r with _ | b <;> rcases m with _ | mv
  · cases h
  · exact hinv.elim
  · exact hinv.elim
  · cases h
    obtain ⟨hmem, hbl, hbd, hmin⟩ := hinv
    exact ⟨hmem, hbl, mv, hbd, hmin⟩

/-- The candidate loop returns `none` exactly when no candidate has two or
more geometry points. -/
lemma find_closest_none_iff (R : RealOps) (els : List Element) (la lo : ℚ) :
    find_closest_road_with_geometry R els la lo = none ↔
      ∀ e ∈ els, e.geometry.length < 2 := by
  have hinv := find_closest_inv R els la lo
  unfold find_closest_road_with_geometry
  rcases hst : els.foldl (closestStep R la lo) (none, none) with ⟨r, m⟩
  rw [hst] at hinv
  rcases r with _ | b <;> rcases m with _ | mv
  · simpa using hinv
  · exact hinv.elim
  · exact hinv.elim
  · obtain ⟨hmem, hbl, _, _⟩ := hinv
    simp only [Option.some_ne_none, false_iff]
    intro hall
    exact absurd hbl (not_le.mpr (hall b hmem))

/-- C2: `find_closest_road_with_geometry` considers exactly the candidates
with at least two geometry points, scores each by its minimum clamped
point-to-segment distance over consecutive point pairs, returns a candidate
whose minimum distance is less than or equal to every other eligible
candidate's, and returns `none` exactly when no candidate has usable
geometry. -/
theorem find_closest_road_spec (R : RealOps) (els : List Element)
    (la lo : ℚ) :
    (find_closest_road_with_geometry R els la lo = none ↔
      ∀ e ∈ els, e.geometry.length < 2) ∧
    (∀ e, find_closest_road_with_geometry R els la lo = some e →
      e ∈ els ∧ 2 ≤ e.geometry.length ∧
        ∃ m, roadMinDist R e la lo = some m ∧
          ∀ e' ∈ els, 2 ≤ e'.geometry.length →
            ∀ d', roadMinDist R e' la lo = some d' → m ≤ d') :=
  ⟨find_closest_none_iff R els la lo,
   fun e h => find_closest_mem R els la lo e h⟩

/-- A concrete instantiation of the abstract real operations, used only to
evaluate witnesses (`sqrt` as the identity keeps distances comparable). -/
def R0 : RealOps :=
  ⟨id, fun _ => 0, fun _ => 0, fun _ => 0, fun _ _ => 0, fun _ => 0, fun _ => 0⟩

/-- A road passing through the query point (distance 0). -/
def eNear : Element := ⟨"residential", "25 mph", "Near St", "", [⟨0, 0⟩, ⟨1, 0⟩]⟩

/-- A road one degree of longitude away from the query point. -/
def eFar : Element := ⟨"residential", "30 mph", "Far St", "", [⟨0, 1⟩, ⟨1, 1⟩]⟩

/-- Witness for C2: at the origin, the returned candidate `eNear` is
eligible and its minimum segment distance is below every other eligible
candidate's. -/
theorem find_closest_road_spec_witness :
    eNear ∈ [eNear, eFar] ∧ 2 ≤ eNear.geometry.length ∧
      ∃ m, roadMinDist R0 eNear 0 0 = some m ∧
        ∀ e' ∈ [eNear, eFar], 2 ≤ e'.geometry.length →
          ∀ d', roadMinDist R0 e' 0 0 = some d' → m ≤ d' :=
  (find_closest_road_spec R0 [eNear, eFar] 0 0).2 eNear
    (by norm_num [find_closest_road_with_geometry, closestStep, roadMinDist,
      segmentPairs, minDistStep, calculate_point_to_segment_distance, R0,
      eNear, eFar, max_def, min_def])

/-! ### Resolution pipeline lemmas -/

lemma explicitResultOf_source (road : Element) (res : SpeedLimitResult)
    (h : explicitResultOf road = some res) : res.source = "openstreetmap" := by
  simp only [explicitResultOf] at h
  split_ifs at h
  cases h
  rfl

lemma estimatedResultOf_source (road : Element) (res : SpeedLimitResult)
    (h : estimatedResultOf road = some res) : res.source = "estimated" := by
  simp only [estimatedResultOf] at h
  split_ifs at h
  cases h
  rfl

lemma HIGHWAY_SPEED_DEFAULTS_pos (h : String) (v : Nat)
    (hv : HIGHWAY_SPEED_DEFAULTS h = some v) : 0 < v := by
  unfold HIGHWAY_SPEED_DEFAULTS at hv
  rcases hf : HIGHWAY_SPEED_DEFAULTS_TABLE.find? (fun p => p.1 = h) with _ | p
  · rw [hf] at hv
    cases hv
  · rw [hf] at hv
    cases hv
    have hmem := List.mem_of_find?_eq_some hf
    have hall : ∀ q ∈ HIGHWAY_SPEED_DEFAULTS_TABLE, 0 < q.2 := by decide
    exact hall p hmem

lemma mem_driveableRoads (els : List Element) (e : Element)
    (h : e ∈ driveableRoads els) :
    e ∈ els ∧ (HIGHWAY_SPEED_DEFAULTS e.highway).isSome := by
  unfold driveableRoads at h
  have := List.mem_filter.mp h
  exact ⟨this.1, (Bool.and_eq_true _ _ |>.mp this.2).2⟩

/-- Any road passing the driveable filter yields a (truthy) estimated
result. -/
lemma estimatedResultOf_of_driveable (els : List Element) (e : Element)
    (h : e ∈ driveableRoads els) :
    ∃ res, estimatedResultOf e = some res := by
  obtain ⟨-, hsome⟩ := mem_driveableRoads els e h
  obtain ⟨v, hv⟩ := Option.isSome_iff_exists.mp hsome
  have hpos := HIGHWAY_SPEED_DEFAULTS_pos _ _ hv
  refine ⟨⟨some v, "mph",
    some (sanitize_string (pickName e (pyTitle (underscoreToSpace e.highway))) 100),
    "estimated"⟩, ?_⟩
  simp only [estimatedResultOf, hv]
  rw [if_pos]
  simp only [optTruthy]
  simpa using Nat.pos_iff_ne_zero.mp hpos

lemma pickClosestOrFirst_mem (R : RealOps) (els : List Element)
    (la lo : ℚ) (e : Element) (h : pickClosestOrFirst R els la lo = some e) :
    e ∈ els := by
  unfold pickClosestOrFirst at h
  rcases hf : find_closest_road_with_geometry R els la lo with _ | road
  · rw [hf] at h
    rcases els with _ | ⟨x, xs⟩
    · cases h
    · cases h
      simp
  · rw [hf] at h
    cases h
    exact (find_closest_mem R els la lo _ hf).1

lemma pickClosestOrFirst_isSome (R : RealOps) (els : List Element)
    (la lo : ℚ) (h : els ≠ []) :
    ∃ e, pickClosestOrFirst R els la lo = some e := by
  unfold pickClosestOrFirst
  rcases hf : find_closest_road_with_geometry R els la lo with _ | road
  · rcases els with _ | ⟨x, xs⟩
    · exact absurd rfl h
    · exact ⟨x, rfl⟩
  · exact ⟨road, rfl⟩

lemma tryEstimated_isSome (R : RealOps) (els : List Element) (la lo : ℚ)
    (h : driveableRoads els ≠ []) :
    ∃ res, tryEstimated R els la lo = some res ∧ res.source = "estimated" := by
  simp only [tryEstimated]
  rw [if_neg h]
  obtain ⟨e, he⟩ := pickClosestOrFirst_isSome R (driveableRoads els) la lo h
  rw [he]
  have hmem := pickClosestOrFirst_mem R (driveableRoads els) la lo e he
  obtain ⟨res, hres⟩ := estimatedResultOf_of_driveable els e hmem
  exact ⟨res, hres, estimatedResultOf_source e res hres⟩

lemma tryEstimated_source (R : RealOps) (els : List Element) (la lo : ℚ)
    (res : SpeedLimitResult) (h : tryEstimated R els la lo = some res) :
    res.source = "estimated" := by
  simp only [tryEstimated] at h
  split_ifs at h
  rcases hp : pickClosestOrFirst R (driveableRoads els) la lo with _ | road
  · rw [hp] at h
    cases h
  · rw [hp] at h
    exact estimatedResultOf_source road res h

lemma tryExplicitOrFirst_source (R : RealOps) (els : List Element)
    (la lo : ℚ) (res : SpeedLimitResult)
    (h : tryExplicitOrFirst R els la lo = some res) :
    res.source = "openstreetmap" := by
  unfold tryExplicitOrFirst at h
  rcases hp : pickClosestOrFirst R els la lo with _ | road
  · rw [hp] at h
    cases h
  · rw [hp] at h
    exact explicitResultOf_source road res h

lemma tryExplicitClosest_source (R : RealOps) (els : List Element)
    (la lo : ℚ) (res : SpeedLimitResult)
    (h : tryExplicitClosest R els la lo = some res) :
    res.source = "openstreetmap" := by
  unfold tryExplicitClosest at h
  rcases hp : find_closest_road_with_geometry R els la lo with _ | road
  · rw [hp] at h
    cases h
  · rw [hp] at h
    exact explicitResultOf_source road res h

lemma explAttempt_source (R : RealOps) (oracle : Oracle) (la lo : ℚ)
    (r : Nat) (res : SpeedLimitResult)
    (h : explAttempt R oracle la lo r = some res) :
    res.source = "openstreetmap" := by
  unfold explAttempt at h
  rcases hu : usableElements (oracle .maxspeedGeom r) with _ | els
  · simp only [hu] at h
    cases h
  · simp only [hu] at h
    exact tryExplicitOrFirst_source R els la lo res h

lemma estAttempt_source (R : RealOps) (oracle : Oracle) (la lo : ℚ)
    (r : Nat) (res : SpeedLimitResult)
    (h : estAttempt R oracle la lo r = some res) :
    res.source = "estimated" := by
  unfold estAttempt at h
  rcases hu : usableElements (oracle .highwayGeom r) with _ | els
  · simp only [hu] at h
    cases h
  · simp only [hu] at h
    exact tryEstimated_source R els la lo res h

lemma step1Attempt_source (R : RealOps) (oracle : Oracle) (la lo : ℚ)
    (res : SpeedLimitResult) (h : step1Attempt R oracle la lo = some res) :
    res.source = "openstreetmap" := by
  unfold step1Attempt at h
  rcases hu : usableElements (oracle .maxspeedGeom 75) with _ | els
  · simp only [hu] at h
    cases h
  · simp only [hu] at h
    exact tryExplicitClosest_source R els la lo res h

/-- A highway query yielding at least one driveable road makes the radius's
estimated attempt succeed. -/
lemma estAttempt_isSome (R : RealOps) (oracle : Oracle) (la lo : ℚ)
    (r : Nat) (els : List Element)
    (hels : oracle .highwayGeom r = some els)
    (hd : driveableRoads els ≠ []) :
    ∃ res, estAttempt R oracle la lo r = some res := by
  have hne : els ≠ [] := by
    intro he
    subst he
    exact hd rfl
  obtain ⟨res, hres, -⟩ := tryEstimated_isSome R els la lo hd
  refine ⟨res, ?_⟩
  unfold estAttempt usableElements
  rw [hels]
  dsimp only
  rw [if_neg hne]
  exact hres

lemma radiusLoop_source (R : RealOps) (oracle : Oracle) (la lo : ℚ) :
    ∀ (rl : List Nat) (res : SpeedLimitResult),
      (radiusLoop R oracle la lo rl).1 = some res →
      res.source = "openstreetmap" ∨ res.source = "estimated" := by
  intro rl
  induction rl with
  | nil =>
    intro res h
    simp [radiusLoop] at h
  | cons r rs ih =>
    intro res h
    rw [radiusLoop] at h
    rcases he : explAttempt R oracle la lo r with _ | res1
    · simp only [he] at h
      rcases hs : estAttempt R oracle la lo r with _ | res2
      · simp only [hs] at h
        rcases hrec : radiusLoop R oracle la lo rs with ⟨o, k⟩
        simp only [hrec] at h
        exact ih res (by rw [hrec]; exact h)
      · simp only [hs] at h
        cases h
        exact Or.inr (estAttempt_source R oracle la lo r _ hs)
    · simp only [he] at h
      cases h
      exact Or.inl (explAttempt_source R oracle la lo r _ he)

lemma radiusLoop_isSome (R : RealOps) (oracle : Oracle) (la lo : ℚ) :
    ∀ (rl : List Nat),
      (∃ r ∈ rl, ∃ els, oracle .highwayGeom r = some els ∧
        driveableRoads els ≠ []) →
      ∃ res, (radiusLoop R oracle la lo rl).1 = some res := by
  intro rl
  induction rl with
  | nil =>
    rintro ⟨r, hr, -⟩
    cases hr
  | cons r rs ih =>
    rintro ⟨r', hr', els, hels, hd⟩
    rw [radiusLoop]
    rcases he : explAttempt R oracle la lo r with _ | res1
    · rcases hs : estAttempt R oracle la lo r with _ | res2
      · rcases List.mem_cons.mp hr' with rfl | hmem
        · obtain ⟨res, hres⟩ := estAttempt_isSome R oracle la lo r' els hels hd
          rw [hres] at hs
          cases hs
        · obtain ⟨res, hres⟩ := ih ⟨r', hmem, els, hels, hd⟩
          rcases hrec : radiusLoop R oracle la lo rs with ⟨o, k⟩
          rw [hrec] at hres
          exact ⟨res, by simp only [hrec]; exact hres⟩
      · exact ⟨res2, rfl⟩
    · exact ⟨res1, rfl⟩

/-- With a stub Geo Query Client that never returns a usable maxspeed
response, no explicit attempt fires. -/
lemma explAttempt_none_of_stub (R : RealOps) (oracle : Oracle) (la lo : ℚ)
    (hm : ∀ r, oracle .maxspeedGeom r = none ∨ oracle .maxspeedGeom r = some [])
    (r : Nat) : explAttempt R oracle la lo r = none := by
  unfold explAttempt usableElements
  rcases hm r with h | h <;> rw [h]
  simp

lemma step1Attempt_none_of_stub (R : RealOps) (oracle : Oracle) (la lo : ℚ)
    (hm : ∀ r, oracle .maxspeedGeom r = none ∨ oracle .maxspeedGeom r = some []) :
    step1Attempt R oracle la lo = none := by
  unfold step1Attempt usableElements
  rcases hm 75 with h | h <;> rw [h]
  simp

lemma radiusLoop_stub_source (R : RealOps) (oracle : Oracle) (la lo : ℚ)
    (hm : ∀ r, oracle .maxspeedGeom r = none ∨ oracle .maxspeedGeom r = some []) :
    ∀ (rl : List Nat) (res : SpeedLimitResult),
      (radiusLoop R oracle la lo rl).1 = some res →
      res.source = "estimated" := by
  intro rl
  induction rl with
  | nil =>
    intro res h
    simp [radiusLoop] at h
  | cons r rs ih =>
    intro res h
    rw [radiusLoop] at h
    rw [explAttempt_none_of_stub R oracle la lo hm r] at h
    rcases hs : estAttempt R oracle la lo r with _ | res2
    · simp only [hs] at h
      rcases hrec : radiusLoop R oracle la lo rs with ⟨o, k⟩
      simp only [hrec] at h
      exact ih res (by rw [hrec]; exact h)
    · simp only [hs] at h
      cases h
      exact estAttempt_source R oracle la lo r _ hs

/-- When some radius of the estimated stage sees a driveable road, the
resolution never reaches TomTom or the `"none"` result. -/
lemma resolveSpeedLimit_local (R : RealOps) (oracle : Oracle) (la lo : ℚ)
    (tk : Bool) (tr : Option SpeedLimitResult)
    (hdrv : ∃ r ∈ ([100, 150, 250] : List Nat), ∃ els,
      oracle .highwayGeom r = some els ∧ driveableRoads els ≠ []) :
    (resolveSpeedLimit R oracle la lo tk tr).1.source = "openstreetmap" ∨
    (resolveSpeedLimit R oracle la lo tk tr).1.source = "estimated" := by
  unfold resolveSpeedLimit
  rcases h1 : step1Attempt R oracle la lo with _ | res1
  · obtain ⟨res, hres⟩ := radiusLoop_isSome R oracle la lo _ hdrv
    rcases hrec : radiusLoop R oracle la lo [100, 150, 250] with ⟨o, k⟩
    rw [hrec] at hres
    cases hres
    exact radiusLoop_source R oracle la lo _ res (by rw [hrec])
  · exact Or.inl (step1Attempt_source R oracle la lo res1 h1)

/-- The fallback-ordering scenario: maxspeed queries find nothing, highway
queries find driveable roads at every radius — the result is estimated. -/
lemma resolveSpeedLimit_stub (R : RealOps) (oracle : Oracle) (la lo : ℚ)
    (tk : Bool) (tr : Option SpeedLimitResult)
    (hm : ∀ r, oracle .maxspeedGeom r = none ∨ oracle .maxspeedGeom r = some [])
    (hdrv : ∀ r ∈ ([100, 150, 250] : List Nat), ∃ els,
      oracle .highwayGeom r = some els ∧ driveableRoads els ≠ []) :
    (resolveSpeedLimit R oracle la lo tk tr).1.source = "estimated" := by
  unfold resolveSpeedLimit
  rw [step1Attempt_none_of_stub R oracle la lo hm]
  have hdrv' : ∃ r ∈ ([100, 150, 250] : List Nat), ∃ els,
      oracle .highwayGeom r = some els ∧ driveableRoads els ≠ [] := by
    obtain ⟨els, hels, hd⟩ := hdrv 100 (by simp)
    exact ⟨100, by simp, els, hels, hd⟩
  obtain ⟨res, hres⟩ := radiusLoop_isSome R oracle la lo _ hdrv'
  rcases hrec : radiusLoop R oracle la lo [100, 150, 250] with ⟨o, k⟩
  rw [hrec] at hres
  cases hres
  exact radiusLoop_stub_source R oracle la lo hm _ res (by rw [hrec])

/-- C1: for every valid coordinate with a cache miss, whenever the highway
query finds at least one driveable road at some radius of the estimated
stage, `GET /speed-limit` resolves to `"openstreetmap"` or `"estimated"` —
never `"tomtom"` (the external provider) and never `"none"`; and under a
stub Geo Query Client reporting "road found, no declared limit" at every
radius, the result is exactly `"estimated"`. -/
theorem speed_limit_external_provider_last (R : RealOps) (oracle : Oracle)
    (c : Cache) (now lat lon : ℚ) (tk : Bool)
    (tr : Option SpeedLimitResult)
    (hlat : -90 ≤ lat ∧ lat ≤ 90) (hlon : -180 ≤ lon ∧ lon ≤ 180)
    (hmiss : (get_cached_speed_limit c now lat lon).1 = none) :
    ((∃ r ∈ ([100, 150, 250] : List Nat), ∃ els,
        oracle .highwayGeom r = some els ∧ driveableRoads els ≠ []) →
      ∀ res c' k,
        get_speed_limit R oracle c now lat lon tk tr = .ok (res, c', k) →
        res.source ≠ "tomtom" ∧ res.source ≠ "none") ∧
    ((∀ r, oracle .maxspeedGeom r = none ∨ oracle .maxspeedGeom r = some []) →
     (∀ r ∈ ([100, 150, 250] : List Nat), ∃ els,
        oracle .highwayGeom r = some els ∧ driveableRoads els ≠ []) →
      ∀ res c' k,
        get_speed_limit R oracle c now lat lon tk tr = .ok (res, c', k) →
        res.source = "estimated") := by
  have hvalid : ¬ (¬ (-90 ≤ lat ∧ lat ≤ 90) ∨ ¬ (-180 ≤ lon ∧ lon ≤ 180)) := by
    push_neg
    exact ⟨hlat, hlon⟩
  rcases hg : get_cached_speed_limit c now lat lon with ⟨o, c₂⟩
  rw [hg] at hmiss
  simp only at hmiss
  subst hmiss
  have hunfold : get_speed_limit R oracle c now lat lon tk tr =
      .ok ((resolveSpeedLimit R oracle lat lon tk tr).1,
        set_cached_speed_limit c₂ now lat lon
          (resolveSpeedLimit R oracle lat lon tk tr).1,
        (resolveSpeedLimit R oracle lat lon tk tr).2) := by
    unfold get_speed_limit
    rw [if_neg hvalid, hg]
  constructor
  · intro hdrv res c' k heq
    rw [hunfold] at heq
    cases heq
    rcases resolveSpeedLimit_local R oracle lat lon tk tr hdrv with h | h <;>
      rw [h] <;> exact ⟨by decide, by decide⟩
  · intro hm hdrv res c' k heq
    rw [hunfold] at heq
    cases heq
    exact resolveSpeedLimit_stub R oracle lat lon tk tr hm
      (by
        intro r hr
        exact hdrv r hr)

/-- The neighbour scan finds nothing in an empty cache. -/
lemma scanNearbyKeys_nilcache (now : ℚ) (key : ℤ × ℤ) :
    ∀ ks, scanNearbyKeys [] now key ks = none := by
  intro ks
  induction ks with
  | nil => rfl
  | cons k ks ih =>
    rw [scanNearbyKeys]
    exact ih

/-- A `Get` on the empty cache is a miss and leaves the cache empty. -/
lemma get_cached_nil_pair (now la lo : ℚ) :
    get_cached_speed_limit [] now la lo = (none, []) := by
  unfold get_cached_speed_limit
  simp only [cacheFind, scanNearbyKeys_nilcache]

/-- A geometry-less residential road without a declared limit, as delivered
by the stub Geo Query Client. -/
def resElemA : Element := ⟨"residential", "", "A", "", []⟩

/-- Stub Geo Query Client: maxspeed queries fail, highway queries return a
driveable road without a declared limit at every radius. -/
def oracleStub : Oracle := fun k _ =>
  match k with
  | .maxspeedGeom => none
  | .highwayGeom => some [resElemA]

/-- Witness for C1: under the stub client the endpoint resolves to
`"estimated"`. -/
theorem speed_limit_external_provider_last_witness :
    (resolveSpeedLimit R0 oracleStub 0 0 false none).1.source = "estimated" :=
  (speed_limit_external_provider_last R0 oracleStub [] 0 0 0 false none
    (by norm_num) (by norm_num) (by rw [get_cached_nil_pair])).2
    (fun r => Or.inl rfl)
    (fun r hr => ⟨[resElemA], rfl, by decide⟩)
    (resolveSpeedLimit R0 oracleStub 0 0 false none).1
    (set_cached_speed_limit [] 0 0 0
      (resolveSpeedLimit R0 oracleStub 0 0 false none).1)
    (resolveSpeedLimit R0 oracleStub 0 0 false none).2
    (by
      unfold get_speed_limit
      rw [if_neg (by norm_num), get_cached_nil_pair])

/-- A geometry-less motorway without a declared limit. -/
def mwElemB : Element := ⟨"motorway", "", "B", "", []⟩

/-- Oracle returning a residential road *before* a motorway, both without
geometry and without declared limits. -/
def oracleC6 : Oracle := fun k _ =>
  match k with
  | .maxspeedGeom => none
  | .highwayGeom => some [resElemA, mwElemB]

/-- Counterexample to C6 as stated: with geometry-less candidates
`[residential "A", motorway "B"]`, the resolution returns the residential
road (the first element), although `get_best_road` — the priority order the
claim describes — would pick the motorway, whose class priority is
strictly better.  The priority table exists in the source but is never
called on this path. -/
theorem get_best_road_unused_counterexample :
    (resolveSpeedLimit R0 oracleC6 0 0 false none).1
      = ⟨some 25, "mph", some "A", "estimated"⟩ ∧
    get_best_road [resElemA, mwElemB] = some mwElemB ∧
    ROAD_PRIORITY mwElemB.highway < ROAD_PRIORITY resElemA.highway := by
  refine ⟨by decide, by decide, by decide⟩

/-- C6 (amended): when the maxspeed stages find nothing and no driveable
candidate of the highway query carries usable geometry, the resolution
picks the *first* driveable candidate in response order (not the road-class
priority order; `get_best_road` is dead code on this path). -/
theorem no_geometry_picks_first_candidate (R : RealOps) (oracle : Oracle)
    (la lo : ℚ) (tk : Bool) (tr : Option SpeedLimitResult)
    (hm : ∀ r, oracle .maxspeedGeom r = none ∨ oracle .maxspeedGeom r = some [])
    (els : List Element) (e : Element) (tl : List Element)
    (hels : oracle .highwayGeom 100 = some els)
    (hdr : driveableRoads els = e :: tl)
    (hgeom : ∀ x ∈ driveableRoads els, x.geometry.length < 2) :
    (resolveSpeedLimit R oracle la lo tk tr).1 =
      ⟨HIGHWAY_SPEED_DEFAULTS e.highway, "mph",
       some (sanitize_string
         (pickName e (pyTitle (underscoreToSpace e.highway))) 100),
       "estimated"⟩ := by
  have hne : els ≠ [] := by
    intro h
    rw [h] at hdr
    simp [driveableRoads] at hdr
  have hmem : e ∈ driveableRoads els := by
    rw [hdr]
    exact List.mem_cons_self e tl
  obtain ⟨-, hsome⟩ := mem_driveableRoads els e hmem
  obtain ⟨v, hv⟩ := Option.isSome_iff_exists.mp hsome
  have hpos := HIGHWAY_SPEED_DEFAULTS_pos _ _ hv
  have htruthy : optTruthy (HIGHWAY_SPEED_DEFAULTS e.highway) = true := by
    rw [hv]
    simp only [optTruthy]
    simpa using Nat.pos_iff_ne_zero.mp hpos
  have hest : estAttempt R oracle la lo 100 =
      some ⟨HIGHWAY_SPEED_DEFAULTS e.highway, "mph",
        some (sanitize_string
          (pickName e (pyTitle (underscoreToSpace e.highway))) 100),
        "estimated"⟩ := by
    unfold estAttempt usableElements
    rw [hels]
    dsimp only
    rw [if_neg hne]
    have hfc : find_closest_road_with_geometry R (driveableRoads els) la lo
        = none := (find_closest_none_iff R (driveableRoads els) la lo).mpr hgeom
    simp only [tryEstimated, pickClosestOrFirst, hfc]
    rw [if_neg (by rw [hdr]; exact List.cons_ne_nil e tl), hdr]
    simp only [List.head?_cons, estimatedResultOf]
    rw [if_pos htruthy]
  unfold resolveSpeedLimit
  rw [step1Attempt_none_of_stub R oracle la lo hm]
  rw [radiusLoop, explAttempt_none_of_stub R oracle la lo hm, hest]

/-- Witness for C6 (amended): the stub client of the counterexample indeed
resolves to the first candidate, the residential road. -/
theorem no_geometry_picks_first_candidate_witness :
    (resolveSpeedLimit R0 oracleC6 0 0 false none).1 =
      ⟨HIGHWAY_SPEED_DEFAULTS resElemA.highway, "mph",
       some (sanitize_string
         (pickName resElemA (pyTitle (underscoreToSpace resElemA.highway))) 100),
       "estimated"⟩ :=
  no_geometry_picks_first_candidate R0 oracleC6 0 0 false none
    (fun r => Or.inl rfl) [resElemA, mwElemB] resElemA [mwElemB]
    rfl (by decide) (by decide)

/-! ### Put-then-Get lemmas (C5) -/

/-- A `Get` right after a `Put` at the same coordinate serves the stored
data from the exact cell (any source: the exact cell has no source filter). -/
lemma get_cached_after_put (c : Cache) (now lat lon : ℚ)
    (data : SpeedLimitResult) :
    get_cached_speed_limit (set_cached_speed_limit c now lat lon data) now lat lon
      = (some data, set_cached_speed_limit c now lat lon data) := by
  simp only [get_cached_speed_limit, set_cached_speed_limit]
  rw [cacheFind_insert]
  dsimp only
  rw [if_pos (by rw [sub_self]; exact get_cache_ttl_pos data.source)]

/-- The grid offsets `[-0.0005, 0, 0.0005]` used by the 3x3 scan. -/
lemma neg_offset_mem (m : ℤ) (hm : m = -1 ∨ m = 0 ∨ m = 1) :
    (-(m : ℚ))/2000 ∈ [-(1 : ℚ)/2000, 0, 1/2000] := by
  rcases hm with rfl | rfl | rfl <;> norm_num

lemma mem_nearby_of_offsets (X Y dlat dlon : ℚ)
    (h1 : dlat ∈ [-(1 : ℚ)/2000, 0, 1/2000])
    (h2 : dlon ∈ [-(1 : ℚ)/2000, 0, 1/2000]) :
    get_cache_key (X + dlat) (Y + dlon) ∈ get_nearby_cache_keys X Y := by
  unfold get_nearby_cache_keys
  exact List.mem_flatMap.mpr ⟨dlat, h1, List.mem_map.mpr ⟨dlon, h2, rfl⟩⟩

/-- A `Get` right after a `Put` into the empty cache, one grid cell away
(the point not sitting on a cell boundary), serves the stored data from the
neighbour scan — provided the source is accepted by the scan. -/
lemma get_cached_after_put_neighbor (now lat lon : ℚ)
    (data : SpeedLimitResult) (m n : ℤ)
    (hm : m = -1 ∨ m = 0 ∨ m = 1) (hn : n = -1 ∨ n = 0 ∨ n = 1)
    (hmn : ¬ (m = 0 ∧ n = 0))
    (hla : lat * 2000 - ⌊lat * 2000⌋ ≠ 1/2)
    (hlo : lon * 2000 - ⌊lon * 2000⌋ ≠ 1/2)
    (herr : data.source ≠ "error") (hnone : data.source ≠ "none") :
    get_cached_speed_limit (set_cached_speed_limit [] now lat lon data) now
        (lat + (m : ℚ)/2000) (lon + (n : ℚ)/2000)
      = (some data, set_cached_speed_limit [] now lat lon data) := by
  have hput : set_cached_speed_limit [] now lat lon data
      = [(get_cache_key lat lon, ⟨now, data⟩)] := by
    simp [set_cached_speed_limit, cacheInsert]
  have hkey' := get_cache_key_shift lat lon m n hla hlo
  have hne : get_cache_key lat lon
      ≠ get_cache_key (lat + (m : ℚ)/2000) (lon + (n : ℚ)/2000) := by
    rw [hkey']
    unfold get_cache_key
    intro h
    rw [Prod.ext_iff] at h
    refine hmn ⟨?_, ?_⟩ <;> [have := h.1; have := h.2] <;> omega
  have hmem : get_cache_key lat lon
      ∈ get_nearby_cache_keys (lat + (m : ℚ)/2000) (lon + (n : ℚ)/2000) := by
    have hco1 : (lat + (m : ℚ)/2000) + (-(m : ℚ))/2000 = lat := by ring
    have hco2 : (lon + (n : ℚ)/2000) + (-(n : ℚ))/2000 = lon := by ring
    have := mem_nearby_of_offsets (lat + (m : ℚ)/2000) (lon + (n : ℚ)/2000)
      ((-(m : ℚ))/2000) ((-(n : ℚ))/2000)
      (neg_offset_mem m hm) (neg_offset_mem n hn)
    rwa [hco1, hco2] at this
  have hscan := scanNearbyKeys_single (get_cache_key lat lon) ⟨now, data⟩ now
    (get_cache_key (lat + (m : ℚ)/2000) (lon + (n : ℚ)/2000))
    (get_nearby_cache_keys (lat + (m : ℚ)/2000) (lon + (n : ℚ)/2000))
    hmem hne (by rw [sub_self]; exact get_cache_ttl_pos data.source) herr hnone
  rw [hput]
  simp only [get_cached_speed_limit]
  have hfind : cacheFind [(get_cache_key lat lon, (⟨now, data⟩ : CacheEntry))]
      (get_cache_key (lat + (m : ℚ)/2000) (lon + (n : ℚ)/2000)) = none := by
    simp [cacheFind, hne]
  rw [hfind]
  rw [hscan]

/-- C5 (amended): a `Put` followed immediately by a `Get` through the
endpoint returns exactly the stored result with zero upstream calls — at
the same coordinate for *every* stored value, and at a grid-neighbouring
coordinate (off the cell boundaries, starting from an empty cache) for
every value whose source is not `Error`/`None` (the neighbour scan rejects
those, see the counterexample). -/
theorem put_then_get_roundtrip (R : RealOps) (oracle : Oracle) (tk : Bool)
    (tr : Option SpeedLimitResult) :
    (∀ (c : Cache) (now lat lon : ℚ) (data : SpeedLimitResult),
      (-90 ≤ lat ∧ lat ≤ 90) → (-180 ≤ lon ∧ lon ≤ 180) →
      get_speed_limit R oracle (set_cached_speed_limit c now lat lon data)
          now lat lon tk tr
        = .ok (data, set_cached_speed_limit c now lat lon data, 0)) ∧
    (∀ (now lat lon : ℚ) (data : SpeedLimitResult) (m n : ℤ),
      (m = -1 ∨ m = 0 ∨ m = 1) → (n = -1 ∨ n = 0 ∨ n = 1) →
      ¬ (m = 0 ∧ n = 0) →
      lat * 2000 - ⌊lat * 2000⌋ ≠ 1/2 → lon * 2000 - ⌊lon * 2000⌋ ≠ 1/2 →
      data.source ≠ "error" → data.source ≠ "none" →
      (-90 ≤ lat + (m : ℚ)/2000 ∧ lat + (m : ℚ)/2000 ≤ 90) →
      (-180 ≤ lon + (n : ℚ)/2000 ∧ lon + (n : ℚ)/2000 ≤ 180) →
      get_speed_limit R oracle (set_cached_speed_limit [] now lat lon data)
          now (lat + (m : ℚ)/2000) (lon + (n : ℚ)/2000) tk tr
        = .ok (data, set_cached_speed_limit [] now lat lon data, 0)) := by
  constructor
  · intro c now lat lon data hlat hlon
    unfold get_speed_limit
    rw [if_neg (by push_neg; exact ⟨hlat, hlon⟩), get_cached_after_put]
  · intro now lat lon data m n hm hn hmn hla hlo herr hnone hlat hlon
    unfold get_speed_limit
    rw [if_neg (by push_neg; exact ⟨hlat, hlon⟩),
      get_cached_after_put_neighbor now lat lon data m n hm hn hmn hla hlo
        herr hnone]

/-- An `"error"` result (`source = "error"`, no limit). -/
def errorData : SpeedLimitResult := ⟨none, "mph", none, "error"⟩

/-- A Geo Query Client whose every call fails. -/
def oracleFail : Oracle := fun _ _ => none

/-- Counterexample to C5 as stated: after `Put`ting an `"error"` result at
the origin, a `Get` one grid cell away misses (the neighbour scan refuses
`error`/`none` sources), so the endpoint re-resolves — here making 7
upstream calls and returning the `"none"` result instead of the stored
one. -/
theorem put_then_get_neighbor_counterexample :
    (get_cached_speed_limit (set_cached_speed_limit [] 0 0 0 errorData) 0
        (1/2000) 0).1 = none ∧
    get_speed_limit R0 oracleFail (set_cached_speed_limit [] 0 0 0 errorData)
        0 (1/2000) 0 false none
      = .ok (noneResult,
          set_cached_speed_limit (set_cached_speed_limit [] 0 0 0 errorData)
            0 (1/2000) 0 noneResult, 7) ∧
    noneResult ≠ errorData ∧ (7 : Nat) ≠ 0 := by
  have hput : set_cached_speed_limit [] 0 0 0 errorData
      = [((0, 0), ⟨0, errorData⟩)] := by
    norm_num [set_cached_speed_limit, cacheInsert, get_cache_key, pyRound]
  have hkey : get_cache_key (1/2000) 0 = (1, 0) := by
    norm_num [get_cache_key, pyRound]
  have hnear : get_nearby_cache_keys (1/2000) 0 =
      [(0,-1),(0,0),(0,1),(1,-1),(1,0),(1,1),(2,-1),(2,0),(2,1)] := by
    norm_num [get_nearby_cache_keys, get_cache_key, pyRound, fract_neg_one]
  have hget : get_cached_speed_limit [((0, 0), ⟨0, errorData⟩)] 0 (1/2000) 0
      = (none, [((0, 0), ⟨0, errorData⟩)]) := by
    simp only [get_cached_speed_limit, hkey, hnear]
    have hfind : cacheFind [((0, 0), (⟨0, errorData⟩ : CacheEntry))] (1, 0)
        = none := by
      simp [cacheFind, Prod.ext_iff]
    rw [hfind]
    simp +decide [scanNearbyKeys, cacheFind, get_cache_ttl, errorData,
      Prod.ext_iff]
  have hres : resolveSpeedLimit R0 oracleFail (1/2000) 0 false none
      = (noneResult, 7) := by decide
  refine ⟨by rw [hput, hget], ?_, by decide, by decide⟩
  unfold get_speed_limit
  rw [if_neg (by norm_num), hput, hget]
  dsimp only
  rw [hres]

/-- Witness for C5 (amended): a concrete same-cell and a concrete
neighbour-cell round trip. -/
theorem put_then_get_roundtrip_witness :
    get_speed_limit R0 oracleFail
        (set_cached_speed_limit [] 0 10 20 estimatedCellData) 0 10 20 false none
      = .ok (estimatedCellData,
          set_cached_speed_limit [] 0 10 20 estimatedCellData, 0) ∧
    get_speed_limit R0 oracleFail
        (set_cached_speed_limit [] 0 10 20 estimatedCellData) 0 (10 + (1 : ℤ)/2000)
        (20 + (0 : ℤ)/2000) false none
      = .ok (estimatedCellData,
          set_cached_speed_limit [] 0 10 20 estimatedCellData, 0) :=
  ⟨(put_then_get_roundtrip R0 oracleFail false none).1 [] 0 10 20
      estimatedCellData (by norm_num) (by norm_num),
   (put_then_get_roundtrip R0 oracleFail false none).2 0 10 20
      estimatedCellData 1 0 (by decide) (by decide) (by decide)
      (by norm_num) (by norm_num) (by decide) (by decide)
      (by norm_num) (by norm_num)⟩

/-! ## `query_overpass_with_fallback` (server.py lines 162-218) -/

/-- The `last_successful_server` record (`{"url": ..., "time": ...}`). -/
structure Affinity where
  url : Option String
  time : ℚ
deriving DecidableEq

/-- Outcome of one HTTP POST to an Overpass endpoint: timeout
(`httpx.TimeoutException`), an error status (`raise_for_status`), any other
client error, or a 200 whose body may or may not parse (`response.json()`
raising is caught by the generic handler). -/
inductive HttpResult (α : Type)
  | timeout
  | statusError (code : Nat)
  | otherError
  | ok (body : Option α)
deriving DecidableEq

/-- The `for server_url in servers` loop: on a 200 the affinity is updated
*before* the body is parsed, so an unparseable 200 still moves the
affinity; every failure continues with the next endpoint.  Returns the
parsed body (if any), the final affinity, and the endpoints attempted in
order. -/
def tryServers {α : Type} (respond : String → HttpResult α) (now : ℚ) :
    List String → Affinity → Option α × Affinity × List String
  | [], aff => (none, aff, [])
  | u :: rest, aff =>
    match respond u with
    | .ok (some j) => (some j, ⟨some u, now⟩, [u])
    | .ok none =>
      let (r, a, tried) := tryServers respond now rest ⟨some u, now⟩
      (r, a, u :: tried)
    | _ =>
      let (r, a, tried) := tryServers respond now rest aff
      (r, a, u :: tried)

/-- Building the server order: prefer the last successful endpoint when it
was recent (move to front), otherwise the random shuffle (modelled by the
`shuffled` argument, constrained to a permutation in theorems). -/
def buildServerList (pool : List String) (aff : Affinity) (now : ℚ)
    (shuffled : List String) : List String :=
  if aff.url.isSome ∧ now - aff.time < 300 then
    match aff.url with
    | some u => if pool.contains u then u :: pool.erase u else pool
    | none => pool
  else shuffled

/-- `query_overpass_with_fallback`: order the pool, then walk it once. -/
def query_overpass_with_fallback {α : Type} (pool : List String)
    (aff : Affinity) (now : ℚ) (shuffled : List String)
    (respond : String → HttpResult α) :
    Option α × Affinity × List String :=
  tryServers respond now (buildServerList pool aff now shuffled) aff

lemma tryServers_tried_sublist {α : Type} (respond : String → HttpResult α)
    (now : ℚ) :
    ∀ (l : List String) (aff : Affinity),
      ((tryServers respond now l aff).2.2).Sublist l := by
  intro l
  induction l with
  | nil =>
    intro aff
    simp [tryServers]
  | cons u rest ih =>
    intro aff
    rw [tryServers]
    rcases hr : respond u with _ | code | _ | body
    · rcases h : tryServers respond now rest aff with ⟨r, a, tried⟩
      simp only [h]
      exact (by simpa [h] using ih aff : tried.Sublist rest).cons₂ u
    · rcases h : tryServers respond now rest aff with ⟨r, a, tried⟩
      simp only [h]
      exact (by simpa [h] using ih aff : tried.Sublist rest).cons₂ u
    · rcases h : tryServers respond now rest aff with ⟨r, a, tried⟩
      simp only [h]
      exact (by simpa [h] using ih aff : tried.Sublist rest).cons₂ u
    · rcases body with _ | j
      · rcases h : tryServers respond now rest ⟨some u, now⟩ with ⟨r, a, tried⟩
        simp only [h]
        exact (by simpa [h] using ih ⟨some u, now⟩ : tried.Sublist rest).cons₂ u
      · simp

lemma tryServers_isSome_iff {α : Type} (respond : String → HttpResult α)
    (now : ℚ) :
    ∀ (l : List String) (aff : Affinity),
      (tryServers respond now l aff).1.isSome ↔
        ∃ u ∈ l, ∃ j, respond u = .ok (some j) := by
  intro l
  induction l with
  | nil =>
    intro aff
    simp [tryServers]
  | cons u rest ih =>
    intro aff
    rw [tryServers]
    rcases hr : respond u with _ | code | _ | body
    case timeout | statusError | otherError =>
      rcases h : tryServers respond now rest aff with ⟨r, a, tried⟩
      simp only [h]
      rw [show r.isSome ↔ _ from by simpa [h] using ih aff]
      constructor
      · rintro ⟨v, hv, j, hj⟩
        exact ⟨v, List.mem_cons_of_mem u hv, j, hj⟩
      · rintro ⟨v, hv, j, hj⟩
        rcases List.mem_cons.mp hv with rfl | hv
        · rw [hr] at hj
          cases hj
        · exact ⟨v, hv, j, hj⟩
    case ok =>
      rcases body with _ | j
      · rcases h : tryServers respond now rest ⟨some u, now⟩ with ⟨r, a, tried⟩
        simp only [h]
        rw [show r.isSome ↔ _ from by simpa [h] using ih ⟨some u, now⟩]
        constructor
        · rintro ⟨v, hv, j, hj⟩
          exact ⟨v, List.mem_cons_of_mem u hv, j, hj⟩
        · rintro ⟨v, hv, j, hj⟩
          rcases List.mem_cons.mp hv with rfl | hv
          · rw [hr] at hj
            cases hj
          · exact ⟨v, hv, j, hj⟩
      · simp only [Option.isSome_some, true_iff]
        exact ⟨u, List.mem_cons_self u rest, j, hr⟩

lemma tryServers_none_tried {α : Type} (respond : String → HttpResult α)
    (now : ℚ) :
    ∀ (l : List String) (aff : Affinity),
      (tryServers respond now l aff).1 = none →
      (tryServers respond now l aff).2.2 = l := by
  intro l
  induction l with
  | nil =>
    intro aff _
    simp [tryServers]
  | cons u rest ih =>
    intro aff hnone
    rw [tryServers] at hnone ⊢
    rcases hr : respond u with _ | code | _ | body
    case timeout | statusError | otherError =>
      all_goals
        rw [hr] at hnone
        rcases h : tryServers respond now rest aff with ⟨r, a, tried⟩
        simp only [h] at hnone ⊢
        have := ih aff (by rw [h]; exact hnone)
        rw [h] at this
        simp only at this
        rw [this]
    case ok =>
      rw [hr] at hnone
      rcases body with _ | j
      · rcases h : tryServers respond now rest ⟨some u, now⟩ with ⟨r, a, tried⟩
        simp only [h] at hnone ⊢
        have := ih ⟨some u, now⟩ (by rw [h]; exact hnone)
        rw [h] at this
        simp only at this
        rw [this]
      · simp at hnone

lemma tryServers_some_aff {α : Type} (respond : String → HttpResult α)
    (now : ℚ) :
    ∀ (l : List String) (aff : Affinity) (j : α),
      (tryServers respond now l aff).1 = some j →
      ∃ u, respond u = .ok (some j) ∧
        (tryServers respond now l aff).2.1 = ⟨some u, now⟩ := by
  intro l
  induction l with
  | nil =>
    intro aff j h
    simp [tryServers] at h
  | cons u rest ih =>
    intro aff j hsome
    rw [tryServers] at hsome ⊢
    rcases hr : respond u with _ | code | _ | body
    case timeout | statusError | otherError =>
      all_goals
        rw [hr] at hsome
        rcases h : tryServers respond now rest aff with ⟨r, a, tried⟩
        simp only [h] at hsome ⊢
        obtain ⟨v, hv, haff⟩ := ih aff j (by rw [h]; exact hsome)
        rw [h] at haff
        simp only at haff
        exact ⟨v, hv, haff⟩
    case ok =>
      rw [hr] at hsome
      rcases body with _ | j'
      · rcases h : tryServers respond now rest ⟨some u, now⟩ with ⟨r, a, tried⟩
        simp only [h] at hsome ⊢
        obtain ⟨v, hv, haff⟩ := ih ⟨some u, now⟩ j (by rw [h]; exact hsome)
        rw [h] at haff
        simp only at haff
        exact ⟨v, hv, haff⟩
      · simp only at hsome ⊢
        cases hsome
        exact ⟨u, hr, rfl⟩

lemma buildServerList_perm (pool : List String) (aff : Affinity) (now : ℚ)
    (shuffled : List String) (hperm : shuffled.Perm pool) :
    (buildServerList pool aff now shuffled).Perm pool := by
  unfold buildServerList
  split_ifs with h
  · rcases hu : aff.url with _ | u
    · exact List.Perm.refl pool
    · dsimp only
      split_ifs with hc
      · exact (List.perm_cons_erase (by simpa using hc)).symm
      · exact List.Perm.refl pool
  · exact hperm

/-- C9: within one logical call, each endpoint of the pool is attempted at
most once; the call succeeds exactly when some endpoint returns a parseable
200 (the first such endpoint also becomes the new affinity); and it fails
only after every endpoint of the pool has been tried. -/
theorem query_overpass_failover_spec {α : Type} (pool : List String)
    (aff : Affinity) (now : ℚ) (shuffled : List String)
    (respond : String → HttpResult α)
    (hperm : shuffled.Perm pool) (hnodup : pool.Nodup) :
    ((query_overpass_with_fallback pool aff now shuffled respond).2.2.Nodup ∧
     ∀ u ∈ (query_overpass_with_fallback pool aff now shuffled respond).2.2,
       u ∈ pool) ∧
    ((query_overpass_with_fallback pool aff now shuffled respond).1.isSome ↔
      ∃ u ∈ pool, ∃ j, respond u = .ok (some j)) ∧
    ((query_overpass_with_fallback pool aff now shuffled respond).1 = none →
      ∀ u ∈ pool,
        u ∈ (query_overpass_with_fallback pool aff now shuffled respond).2.2) ∧
    (∀ j,
      (query_overpass_with_fallback pool aff now shuffled respond).1 = some j →
      ∃ u, respond u = .ok (some j) ∧
        (query_overpass_with_fallback pool aff now shuffled respond).2.1
          = ⟨some u, now⟩) := by
  have hp := buildServerList_perm pool aff now shuffled hperm
  have hsub := tryServers_tried_sublist respond now
    (buildServerList pool aff now shuffled) aff
  unfold query_overpass_with_fallback
  refine ⟨⟨?_, ?_⟩, ?_, ?_, ?_⟩
  · exact hsub.nodup (hp.nodup_iff.mpr hnodup)
  · intro u hu
    exact hp.mem_iff.mp (hsub.mem hu)
  · rw [tryServers_isSome_iff respond now _ aff]
    constructor
    · rintro ⟨u, hu, j, hj⟩
      exact ⟨u, hp.mem_iff.mp hu, j, hj⟩
    · rintro ⟨u, hu, j, hj⟩
      exact ⟨u, hp.mem_iff.mpr hu, j, hj⟩
  · intro hnone u hu
    rw [tryServers_none_tried respond now _ aff hnone]
    exact hp.mem_iff.mpr hu
  · intro j hj
    exact tryServers_some_aff respond now _ aff j hj

/-- Witness for C9: pool `["a", "b"]`, shuffled order `["b", "a"]`, where
`"b"` times out and `"a"` returns a parseable 200 with payload `42`. -/
theorem query_overpass_failover_spec_witness :
    (query_overpass_with_fallback ["a", "b"] ⟨none, 0⟩ 0 ["b", "a"]
        (fun u => if u = "a" then .ok (some (42 : Nat)) else .timeout)).2.2.Nodup ∧
    ((query_overpass_with_fallback ["a", "b"] ⟨none, 0⟩ 0 ["b", "a"]
        (fun u => if u = "a" then .ok (some (42 : Nat)) else .timeout)).1.isSome ↔
      ∃ u ∈ ["a", "b"], ∃ j, (fun u => if u = "a" then
        HttpResult.ok (some (42 : Nat)) else .timeout) u = .ok (some j)) :=
  ⟨((query_overpass_failover_spec ["a", "b"] ⟨none, 0⟩ 0 ["b", "a"]
      (fun u => if u = "a" then .ok (some (42 : Nat)) else .timeout)
      (by decide) (by decide)).1).1,
   (query_overpass_failover_spec ["a", "b"] ⟨none, 0⟩ 0 ["b", "a"]
      (fun u => if u = "a" then .ok (some (42 : Nat)) else .timeout)
      (by decide) (by decide)).2.1⟩

/-! ## Lookahead (`GET /speed-ahead`, server.py lines 1236-1475) -/

/-- `calculate_point_ahead`: great-circle destination point (Earth radius
6 371 000 m), through the abstract real operations. -/
def calculate_point_ahead (R : RealOps) (lat lon bearing distance_m : ℚ) :
    ℚ × ℚ :=
  let lat1 := R.radians lat
  let lon1 := R.radians lon
  let bearing_rad := R.radians bearing
  let lat2 := R.asin (R.sin lat1 * R.cos (distance_m / 6371000) +
    R.cos lat1 * R.sin (distance_m / 6371000) * R.cos bearing_rad)
  let lon2 := lon1 + R.atan2
    (R.sin bearing_rad * R.sin (distance_m / 6371000) * R.cos lat1)
    (R.cos (distance_m / 6371000) - R.sin lat1 * R.sin lat2)
  (R.degrees lat2, R.degrees lon2)

/-- `bearing_to_direction`: bearing → 8-point compass direction. -/
def bearing_to_direction (bearing : ℚ) : String :=
  ["N", "NE", "E", "SE", "S", "SW", "W", "NW"].getD
    ((pyRound (bearing / 45)).emod 8).toNat "N"

/-- `calculate_road_bearing`: overall direction of a road from its first
and last geometry points; `None` for fewer than two points. -/
def calculate_road_bearing (R : RealOps) (geometry : List GeoPoint) :
    Option ℚ :=
  match geometry with
  | [] => none
  | [_] => none
  | p :: q :: rest =>
    let finish := (q :: rest).getLastD q
    let lat1 := R.radians p.lat
    let lon1 := R.radians p.lon
    let lat2 := R.radians finish.lat
    let lon2 := R.radians finish.lon
    let dlon := lon2 - lon1
    let x := R.sin dlon * R.cos lat2
    let y := R.cos lat1 * R.sin lat2 - R.sin lat1 * R.cos lat2 * R.cos dlon
    some (pyMod (R.degrees (R.atan2 x y) + 360) 360)

/-- `is_road_aligned_with_travel`: a road with unknown bearing is always
accepted; otherwise the angular difference (in either direction along the
road) must be within the tolerance. -/
def is_road_aligned_with_travel (road_bearing : Option ℚ)
    (travel_bearing : ℚ) (tolerance : ℚ) : Bool :=
  match road_bearing with
  | none => true
  | some rb0 =>
    let rb := pyMod rb0 360
    let tb := pyMod travel_bearing 360
    let diff1 := |rb - tb|
    let diff2 := |pyMod (rb + 180) 360 - tb|
    let min_diff := min (min diff1 (360 - diff1)) (min diff2 (360 - diff2))
    decide (min_diff ≤ tolerance)

/-- `HIGHWAY_ROAD_TYPES` (limited-access classes). -/
def HIGHWAY_ROAD_TYPES : List String :=
  ["motorway", "motorway_link", "trunk", "trunk_link"]

/-- `current_road_type in HIGHWAY_ROAD_TYPES` (Python: `None` is not in). -/
def currentIsHighway : Option String → Bool
  | some t => HIGHWAY_ROAD_TYPES.contains t
  | none => false

/-- The skip set of `should_include_road_in_prediction`. -/
def predictionSkipTypes : List String :=
  ["footway", "cycleway", "path", "steps", "pedestrian", "bridleway",
   "service", "track", "bus_guideway"]

/-- `should_include_road_in_prediction`: drop non-vehicle classes, require
bearing alignment (tolerance 35 on limited-access roads, 45 otherwise), and
on limited-access roads only admit other limited-access roads. -/
def should_include_road_in_prediction (road_type : String)
    (current_road_type : Option String) (road_bearing : Option ℚ)
    (travel_bearing : ℚ) : Bool :=
  if predictionSkipTypes.contains road_type then false
  else
    let tolerance : ℚ := if currentIsHighway current_road_type then 35 else 45
    if !(is_road_aligned_with_travel road_bearing travel_bearing tolerance)
    then false
    else if currentIsHighway current_road_type
        && !(HIGHWAY_ROAD_TYPES.contains road_type) then false
    else true

/-- The maxspeed parser inlined in `get_speed_ahead` (applied to the
pre-cleaned tag; note: unlike `parse_maxspeed` it has no `none`/`walk`
sentinel handling). -/
def parse_ahead_maxspeed (mc : String) : Option Nat × String :=
  if strContainsSub mc "mph" then
    let ds := mc.toList.filter Char.isDigit
    (if ds = [] then none else some (digitsToNat ds), "mph")
  else if strContainsSub mc "km/h" || strContainsSub mc "kmh" then
    let ds := mc.toList.filter Char.isDigit
    (if ds = [] then none else some (digitsToNat ds), "km/h")
  else if !mc.toList.isEmpty && mc.toList.all Char.isDigit then
    (some (digitsToNat mc.toList), "km/h")
  else
    let ds := mc.toList.filter Char.isDigit
    if ds = [] then (none, "mph") else (some (digitsToNat ds), "km/h")

/-- One entry of `upcoming_limits`. -/
structure Prediction where
  distance_meters : Nat
  speed_limit : Nat
  road_name : String
  unit : String
  road_type : String
deriving DecidableEq

/-- The `/speed-ahead` response body. -/
structure SpeedAheadResponse where
  upcoming_limits : List Prediction
  warning : Option String
  current_direction : String
deriving DecidableEq

/-- The warning update: first time a lower upcoming limit is seen (with a
truthy current limit), synthesize text whose urgency scales with
proximity. -/
def updateWarning (w : Option String) (cur : Option Nat) (n : Nat)
    (unit : String) (d : Nat) : Option String :=
  match cur with
  | some c =>
    if c ≠ 0 ∧ n < c then
      if w = none then
        some (if d ≤ 300 then s!"⚠️ SLOW DOWN: {n} {unit} zone in {d}m"
          else if d ≤ 800 then s!"Speed reduction ahead: {n} {unit} in ~{d}m"
          else s!"Lower speed zone ({n} {unit}) approaching")
      else w
    else w
  | none => w

/-- The per-road inner loop of `get_speed_ahead` at one distance `d`:
dedup by the raw `f"{road_name}_{maxspeed}"` key, bearing/class filter,
inline maxspeed parse, append, warning, and the limited-access `break`
after the first appended road. -/
def processRoads (R : RealOps) (cur : Option Nat) (curType : Option String)
    (b : ℚ) (d : Nat) :
    List Element → List String → List Prediction → Option String →
    List String × List Prediction × Option String
  | [], seen, ups, w => (seen, ups, w)
  | road :: rest, seen, ups, w =>
    let road_name := pickName road (pyTitle (underscoreToSpace road.highway))
    let road_key := road_name ++ "_" ++ road.maxspeed
    if seen.contains road_key then
      processRoads R cur curType b d rest seen ups w
    else
      let rb := calculate_road_bearing R road.geometry
      if !(should_include_road_in_prediction road.highway curType rb b) then
        processRoads R cur curType b d rest seen ups w
      else if road.maxspeed = "" then
        processRoads R cur curType b d rest seen ups w
      else
        let ms := parse_ahead_maxspeed (pyStrip (pyLower road.maxspeed))
        match ms.1 with
        | some n =>
          if n ≠ 0 then
            let seen' := road_key :: seen
            let ups' := ups ++
              [⟨d, n, sanitize_string road_name 50, ms.2, road.highway⟩]
            let w' := updateWarning w cur n ms.2 d
            if currentIsHighway curType then (seen', ups', w')
            else processRoads R cur curType b d rest seen' ups' w'
          else processRoads R cur curType b d rest seen ups w
        | none => processRoads R cur curType b d rest seen ups w

/-- The boundary bearing handling of `get_speed_ahead`:
`if not (0 <= bearing <= 360): bearing = bearing % 360`.  Note the closed
upper bound: `bearing = 360` passes through unchanged. -/
def speed_ahead_bearing (bearing : ℚ) : ℚ :=
  if 0 ≤ bearing ∧ bearing ≤ 360 then bearing else pyMod bearing 360

/-- One distance iteration of `get_speed_ahead`: project the point ahead,
query around it, and process the returned roads. -/
def aheadStep (R : RealOps) (oracle : ℚ → ℚ → ℚ → Option (List Element))
    (lat lon b : ℚ) (radius : ℚ) (cur : Option Nat)
    (curType : Option String)
    (st : List String × List Prediction × Option String) (d : Nat) :
    List String × List Prediction × Option String :=
  let ahead := calculate_point_ahead R lat lon b (d : ℚ)
  match oracle radius ahead.1 ahead.2 with
  | some els =>
    if els = [] then st
    else processRoads R cur curType b d els st.1 st.2.1 st.2.2
  | none => st

/-- `GET /speed-ahead`: validate coordinates, normalize the bearing, choose
distances/radius by road class, fold over the distances. -/
def get_speed_ahead (R : RealOps)
    (oracle : ℚ → ℚ → ℚ → Option (List Element))
    (lat lon bearing : ℚ) (cur : Option Nat) (curType : Option String) :
    Except Nat SpeedAheadResponse :=
  if ¬ (-90 ≤ lat ∧ lat ≤ 90) ∨ ¬ (-180 ≤ lon ∧ lon ≤ 180) then .error 400
  else
    let b := speed_ahead_bearing bearing
    let distances : List Nat :=
      if currentIsHighway curType then [300, 800, 1500] else [200, 500, 1000]
    let search_radius : ℚ := if currentIsHighway curType then 30 else 50
    let final := distances.foldl
      (aheadStep R oracle lat lon b search_radius cur curType) ([], [], none)
    .ok ⟨final.2.1, final.2.2, bearing_to_direction b⟩

/-! ### Bearing normalization (C8) -/

/-- Python float `%` with a positive modulus lands in `[0, modulus)`. -/
lemma pyMod_bounds (a b : ℚ) (hb : 0 < b) : 0 ≤ pyMod a b ∧ pyMod a b < b := by
  unfold pyMod
  constructor
  · have h1 : (⌊a / b⌋ : ℚ) ≤ a / b := Int.floor_le _
    have h2 : (⌊a / b⌋ : ℚ) * b ≤ a := (le_div_iff₀ hb).mp h1
    linarith
  · have h1 : a / b < ⌊a / b⌋ + 1 := Int.lt_floor_add_one _
    have h2 : a < (⌊a / b⌋ + 1) * b := (div_lt_iff₀ hb).mp h1
    linarith

/-- Counterexample to C8 as stated: the input bearing `360` satisfies the
boundary check `0 <= bearing <= 360` and is used unchanged, so the bearing
actually used is `360`, which is *not* in `[0, 360)`. -/
theorem speed_ahead_bearing_counterexample :
    speed_ahead_bearing 360 = 360 ∧ ¬ speed_ahead_bearing 360 < 360 := by
  have h : speed_ahead_bearing 360 = 360 := by
    unfold speed_ahead_bearing
    rw [if_pos (by norm_num)]
  exact ⟨h, by rw [h]; norm_num⟩

/-- C8 (amended): the bearing used by `/speed-ahead` (for point projection,
alignment testing and the compass direction) always lies in the closed
interval `[0, 360]`; inputs outside `[0, 360]` are reduced modulo 360 into
`[0, 360)`, while the boundary value `360` is passed through unchanged. -/
theorem speed_ahead_bearing_range (b : ℚ) :
    0 ≤ speed_ahead_bearing b ∧ speed_ahead_bearing b ≤ 360 ∧
      (¬ (0 ≤ b ∧ b ≤ 360) → speed_ahead_bearing b < 360) := by
  unfold speed_ahead_bearing
  by_cases h : 0 ≤ b ∧ b ≤ 360
  · rw [if_pos h]
    exact ⟨h.1, h.2, fun hc => absurd h hc⟩
  · rw [if_neg h]
    obtain ⟨h1, h2⟩ := pyMod_bounds b 360 (by norm_num)
    exact ⟨h1, le_of_lt h2, fun _ => h2⟩

/-- Witness for C8 (amended): the out-of-range input `700` is normalized
into `[0, 360)`. -/
theorem speed_ahead_bearing_range_witness :
    ¬ ((0 : ℚ) ≤ 700 ∧ (700 : ℚ) ≤ 360) ∧ speed_ahead_bearing 700 < 360 :=
  ⟨by norm_num, (speed_ahead_bearing_range 700).2.2 (by norm_num)⟩

/-! ### Undetermined road bearing (C10) -/

/-- C10: a road with fewer than two geometry points has no determinable
bearing (`calculate_road_bearing` returns `none`); the alignment test
accepts an unknown bearing unconditionally, for every travel bearing and
tolerance; consequently `should_include_road_in_prediction` never filters
such a road out for misalignment — it can only be dropped for its class. -/
theorem road_bearing_none_alignment (R : RealOps) :
    (∀ geometry : List GeoPoint, geometry.length < 2 →
      calculate_road_bearing R geometry = none) ∧
    (∀ (b tol : ℚ), is_road_aligned_with_travel none b tol = true) ∧
    (∀ (rt : String) (cur : Option String) (b : ℚ),
      predictionSkipTypes.contains rt = false →
      (currentIsHighway cur = true → HIGHWAY_ROAD_TYPES.contains rt = true) →
      should_include_road_in_prediction rt cur none b = true) := by
  refine ⟨?_, fun b tol => rfl, ?_⟩
  · intro geometry hlen
    match geometry with
    | [] => rfl
    | [_] => rfl
    | p :: q :: rest =>
      simp at hlen
      omega
  · intro rt cur b hskip hcls
    unfold should_include_road_in_prediction
    rw [if_neg (by simpa using hskip)]
    simp only [is_road_aligned_with_travel, Bool.not_true, if_false]
    rcases hcur : currentIsHighway cur with _ | _
    · simp [hcur]
    · simp [hcur]
      simpa using hcls hcur

/-- Witness for C10: the empty geometry, and a residential road that the
filter keeps despite the unknown bearing. -/
theorem road_bearing_none_alignment_witness :
    calculate_road_bearing R0 [] = none ∧
    is_road_aligned_with_travel none 0 45 = true ∧
    should_include_road_in_prediction "residential" none none 0 = true :=
  ⟨(road_bearing_none_alignment R0).1 [] (by decide),
   (road_bearing_none_alignment R0).2.1 0 45,
   (road_bearing_none_alignment R0).2.2 "residential" none 0
     (by decide) (by decide)⟩

/-! ### Prediction list ordering (C7) -/

/-- Appending one prediction at the current distance keeps the list sorted
by distance and bounded by that distance. -/
lemma sorted_snoc (ups : List Prediction) (q : Prediction) (d : Nat)
    (hs : List.Sorted (· ≤ ·) (ups.map (fun p => p.distance_meters)))
    (hb : ∀ p ∈ ups, p.distance_meters ≤ d)
    (hq : q.distance_meters = d) :
    List.Sorted (· ≤ ·) ((ups ++ [q]).map (fun p => p.distance_meters)) ∧
    ∀ p ∈ ups ++ [q], p.distance_meters ≤ d := by
  constructor
  · rw [List.map_append]
    refine List.pairwise_append.mpr ⟨hs, by simp, ?_⟩
    intro a ha bb hbb
    simp only [List.map_cons, List.map_nil, List.mem_singleton] at hbb
    subst hbb
    obtain ⟨p, hp, rfl⟩ := List.mem_map.mp ha
    rw [hq]
    exact hb p hp
  · intro p hp
    rcases List.mem_append.mp hp with hp | hp
    · exact hb p hp
    · simp only [List.mem_singleton] at hp
      subst hp
      rw [hq]

/-- The inner loop only appends predictions carrying the current distance,
so it preserves sortedness by `distance_meters` and the upper bound `d`. -/
lemma processRoads_sorted (R : RealOps) (cur : Option Nat)
    (curType : Option String) (b : ℚ) (d : Nat) :
    ∀ (roads : List Element) (seen : List String) (ups : List Prediction)
      (w : Option String),
      List.Sorted (· ≤ ·) (ups.map (fun p => p.distance_meters)) →
      (∀ p ∈ ups, p.distance_meters ≤ d) →
      List.Sorted (· ≤ ·)
        (((processRoads R cur curType b d roads seen ups w).2.1).map
          (fun p => p.distance_meters)) ∧
      (∀ p ∈ (processRoads R cur curType b d roads seen ups w).2.1,
        p.distance_meters ≤ d) := by
  intro roads
  induction roads with
  | nil =>
    intro seen ups w hs hb
    exact ⟨hs, hb⟩
  | cons road rest ih =>
    intro seen ups w hs hb
    rw [processRoads]
    dsimp only
    split
    · exact ih seen ups w hs hb
    · split
      · exact ih seen ups w hs hb
      · split
        · exact ih seen ups w hs hb
        · split
          · rename_i n hms
            split
            · rename_i hn
              have hsnoc := sorted_snoc ups
                ⟨d, n, sanitize_string
                    (pickName road (pyTitle (underscoreToSpace road.highway))) 50,
                  (parse_ahead_maxspeed (pyStrip (pyLower road.maxspeed))).2,
                  road.highway⟩ d hs hb rfl
              split
              · exact hsnoc
              · exact ih _ _ _ hsnoc.1 hsnoc.2
            · exact ih seen ups w hs hb
          · exact ih seen ups w hs hb

lemma aheadStep_sorted (R : RealOps)
    (oracle : ℚ → ℚ → ℚ → Option (List Element)) (lat lon b radius : ℚ)
    (cur : Option Nat) (curType : Option String)
    (st : List String × List Prediction × Option String) (d : Nat)
    (hs : List.Sorted (· ≤ ·) (st.2.1.map (fun p => p.distance_meters)))
    (hb : ∀ p ∈ st.2.1, p.distance_meters ≤ d) :
    List.Sorted (· ≤ ·)
      (((aheadStep R oracle lat lon b radius cur curType st d).2.1).map
        (fun p => p.distance_meters)) ∧
    (∀ p ∈ (aheadStep R oracle lat lon b radius cur curType st d).2.1,
      p.distance_meters ≤ d) := by
  unfold aheadStep
  dsimp only
  split
  · split
    · exact ⟨hs, hb⟩
    · exact processRoads_sorted R cur curType b d _ st.1 st.2.1 st.2.2 hs hb
  · exact ⟨hs, hb⟩

lemma foldl_aheadStep_sorted (R : RealOps)
    (oracle : ℚ → ℚ → ℚ → Option (List Element)) (lat lon b radius : ℚ)
    (cur : Option Nat) (curType : Option String) :
    ∀ (ds : List Nat) (st : List String × List Prediction × Option String),
      List.Sorted (· ≤ ·) (st.2.1.map (fun p => p.distance_meters)) →
      (∀ p ∈ st.2.1, ∀ d ∈ ds, p.distance_meters ≤ d) →
      List.Pairwise (· ≤ ·) ds →
      List.Sorted (· ≤ ·)
        (((ds.foldl (aheadStep R oracle lat lon b radius cur curType)
          st).2.1).map (fun p => p.distance_meters)) := by
  intro ds
  induction ds with
  | nil =>
    intro st hs _ _
    simpa using hs
  | cons d ds ihd =>
    intro st hs hb hpw
    rw [List.foldl_cons]
    obtain ⟨hpw_head, hpw_tail⟩ := List.pairwise_cons.mp hpw
    have step := aheadStep_sorted R oracle lat lon b radius cur curType st d hs
      (fun p hp => hb p hp d (List.mem_cons_self d ds))
    refine ihd _ step.1 ?_ hpw_tail
    intro p hp d' hd'
    exact le_trans (step.2 p hp) (hpw_head d' hd')

/-- C7 (amended): every prediction list returned by `/speed-ahead` is in
nondecreasing order of `distanceMeters`.  (Deduplication is keyed on the
raw `f"{roadName}_{maxspeed}"` string, *not* on `(roadName, limit)` — see
the counterexample — so two entries with equal `(roadName, limit)` can both
appear.) -/
theorem speed_ahead_sorted_by_distance (R : RealOps)
    (oracle : ℚ → ℚ → ℚ → Option (List Element)) (lat lon bearing : ℚ)
    (cur : Option Nat) (curType : Option String) (resp : SpeedAheadResponse)
    (h : get_speed_ahead R oracle lat lon bearing cur curType = .ok resp) :
    List.Sorted (· ≤ ·)
      (resp.upcoming_limits.map (fun p => p.distance_meters)) := by
  unfold get_speed_ahead at h
  split_ifs at h with hv hch
  · cases h
    exact foldl_aheadStep_sorted R oracle lat lon
      (speed_ahead_bearing bearing) 30 cur curType [300, 800, 1500]
      ([], [], none) List.Pairwise.nil
      (fun p hp => absurd hp (List.not_mem_nil p)) (by decide)
  · cases h
    exact foldl_aheadStep_sorted R oracle lat lon
      (speed_ahead_bearing bearing) 50 cur curType [200, 500, 1000]
      ([], [], none) List.Pairwise.nil
      (fun p hp => absurd hp (List.not_mem_nil p)) (by decide)

/-- Two ways named "Main St" whose maxspeed tags differ only in encoding
(`"48"` vs `"48 km/h"`), both parsing to the limit 48 km/h. -/
def e48a : Element := ⟨"residential", "48", "Main St", "", []⟩

/-- See `e48a`. -/
def e48b : Element := ⟨"residential", "48 km/h", "Main St", "", []⟩

/-- A lookahead client returning both encodings of the same road at every
projected point. -/
def oracleC7 : ℚ → ℚ → ℚ → Option (List Element) := fun _ _ _ =>
  some [e48a, e48b]

/-- The prediction both ways map to: distance 200 m, 48 km/h, "Main St". -/
def pMain : Prediction := ⟨200, 48, "Main St", "km/h", "residential"⟩

/-- Concrete evaluation of `/speed-ahead` on the duplicate-encoding client:
both entries are emitted at the first distance (the raw dedup keys
`"Main St_48"` and `"Main St_48 km/h"` differ). -/
lemma get_speed_ahead_C7_eval :
    get_speed_ahead R0 oracleC7 0 0 0 none none
      = .ok ⟨[pMain, pMain], none, "N"⟩ := by
  have hb : speed_ahead_bearing 0 = 0 := by
    unfold speed_ahead_bearing
    rw [if_pos (by norm_num)]
  have h200 : aheadStep R0 oracleC7 0 0 0 50 none none ([], [], none) 200
      = (["Main St_48 km/h", "Main St_48"], [pMain, pMain], none) := by
    unfold aheadStep oracleC7
    dsimp only
    rw [if_neg (by decide)]
    decide
  have h500 : aheadStep R0 oracleC7 0 0 0 50 none none
      (["Main St_48 km/h", "Main St_48"], [pMain, pMain], none) 500
      = (["Main St_48 km/h", "Main St_48"], [pMain, pMain], none) := by
    unfold aheadStep oracleC7
    dsimp only
    rw [if_neg (by decide)]
    decide
  have h1000 : aheadStep R0 oracleC7 0 0 0 50 none none
      (["Main St_48 km/h", "Main St_48"], [pMain, pMain], none) 1000
      = (["Main St_48 km/h", "Main St_48"], [pMain, pMain], none) := by
    unfold aheadStep oracleC7
    dsimp only
    rw [if_neg (by decide)]
    decide
  have hdir : bearing_to_direction 0 = "N" := by
    norm_num [bearing_to_direction, pyRound, Int.zero_emod, List.getD]
  unfold get_speed_ahead
  rw [if_neg (by norm_num)]
  dsimp only
  rw [hb]
  simp only [currentIsHighway, Bool.false_eq_true, if_false]
  rw [List.foldl_cons, h200, List.foldl_cons, h500, List.foldl_cons, h1000,
    List.foldl_nil, hdir]

/-- Counterexample to C7 as stated: the returned prediction list holds two
entries with identical `(roadName, limit)` — the dedup key is the raw
`f"{name}_{maxspeed}"` string, and `"48"` vs `"48 km/h"` both parse to
48 km/h. -/
theorem speed_ahead_dedup_counterexample :
    get_speed_ahead R0 oracleC7 0 0 0 none none
      = .ok ⟨[pMain, pMain], none, "N"⟩ ∧
    2 ≤ (([pMain, pMain]).filter (fun p =>
      p.road_name == pMain.road_name && p.speed_limit == pMain.speed_limit)).length :=
  ⟨get_speed_ahead_C7_eval, by decide⟩

/-- Witness for C7 (amended): the duplicate-encoding response is still in
nondecreasing `distanceMeters` order. -/
theorem speed_ahead_sorted_by_distance_witness :
    List.Sorted (· ≤ ·)
      ((SpeedAheadResponse.mk [pMain, pMain] none "N").upcoming_limits.map
        (fun p => p.distance_meters)) :=
  speed_ahead_sorted_by_distance R0 oracleC7 0 0 0 none none
    ⟨[pMain, pMain], none, "N"⟩ get_speed_ahead_C7_eval

end SpeedRead
